import Mathlib

/-
Verification development for the call-control middleware
(call-origination orchestrator in api/onex and the recording
retrieval/cache pipeline in api/acr).

The JavaScript sources are shallowly embedded as pure Lean functions.
External effects (HTTP calls to the One-X endpoint, the Java UCID
monitor, the recording archive, the filesystem, the ffmpeg subprocess
and the audit database) are modelled as oracle environments supplied as
arguments; each run returns the primary response together with counters
and traces of the effects it issued.  JavaScript strings are modelled as
Lean strings (lists of characters); a JavaScript value that the code
only ever tests for truthiness before use (null, undefined or the empty
string) is modelled as an Option that is none in all three falsy cases,
which matches every use site in the embedded code.
-/

/- ===== generic JavaScript-style string helpers ===== -/

/-- Model of JavaScript String.prototype.trim: drop whitespace from both
ends (the code only ever trims ASCII input). -/
def jsTrim (s : String) : String :=
  ⟨((s.data.dropWhile Char.isWhitespace).reverse.dropWhile Char.isWhitespace).reverse⟩

/-- Model of the idiom (x || empty-string) applied to an optional string. -/
def orEmpty (o : Option String) : String :=
  match o with
  | some s => s
  | none => ""

/-- JavaScript truthiness of an optional string: undefined, null and the
empty string are falsy. -/
def jsTruthy (o : Option String) : Bool :=
  match o with
  | some s => !(s == "")
  | none => false

/-- Numeric value of a nonempty list of decimal digits. -/
def digitsToNat (ds : List Char) : Nat :=
  ds.foldl (fun a c => a * 10 + (c.toNat - 48)) 0

/-- Longest decimal-digit prefix of a character list, or none when the
list does not start with a digit. -/
def digitsPrefixVal (cs : List Char) : Option Nat :=
  let ds := cs.takeWhile Char.isDigit
  if ds = [] then none else some (digitsToNat ds)

/-- Model of JavaScript parseInt(s, 10): trim, optional sign, then the
longest digit prefix; none models NaN (no digits). -/
def jsParseInt (s : String) : Option Int :=
  match (jsTrim s).data with
  | '-' :: rest => (digitsPrefixVal rest).map (fun n => -(n : Int))
  | '+' :: rest => (digitsPrefixVal rest).map (fun n => (n : Int))
  | rest => (digitsPrefixVal rest).map (fun n => (n : Int))

/-- JavaScript (a || b) on two nullable strings. -/
def jsOr (a b : Option String) : Option String :=
  match a with
  | some x => some x
  | none => b

/- ===== api/onex: dial-prefix normalization (withPrefix) ===== -/

/-- Embedding of withPrefix from api/onex: with an empty configured
prefix the input is returned unchanged, otherwise the prefix is
prepended unless the number already starts with it.  JavaScript
startsWith is prefix-of on the character sequence. -/
def withPrefixFn (pfx p : String) : String :=
  if pfx = "" then p
  else if pfx.data.isPrefixOf p.data then p
  else pfx ++ p

/- ===== api/onex: startcall orchestration model ===== -/

/-- Outcome of one GET /nextnotification poll: a thrown transport error,
a response without a VoiceInteractionCreated element, or a
VoiceInteractionCreated element carrying optional ObjectId and UCID
attributes (an absent or empty attribute is none). -/
inductive PollOutcome where
  | pollError
  | noVoiceEvent
  | voice (objectId : Option String) (ucid : Option String)
deriving DecidableEq

/-- True exactly for a VoiceInteractionCreated outcome. -/
def PollOutcome.isVoice : PollOutcome → Bool
  | .voice _ _ => true
  | _ => false

/-- True for a VoiceInteractionCreated outcome that carries both an
ObjectId and a UCID. -/
def PollOutcome.isVoiceBoth : PollOutcome → Bool
  | .voice (some _) (some _) => true
  | _ => false

/-- Oracle environment for one startcall attempt: remote responses and
the configuration the route reads.  registerResult is the outcome of
/registerclient (error models a thrown request, ok none models a
response without a usable ClientId attribute).  station is the result
of the device-to-station lookup, which swallows its own errors.
javaUcid is what the Java UCID monitor would return if started (that
helper never throws and yields none on any failure or timeout). -/
structure OnexEnv where
  baseUrlOk : Bool
  registerResult : Except Unit (Option String)
  makecallOk : Bool
  pollAt : Nat → PollOutcome
  maxAttempts : Nat
  station : Option String
  javaUcid : Option String
  callPfx : String

/-- Query parameters of GET /startcall; a missing or empty parameter is
none. -/
structure StartcallReq where
  ticketNumber : Option String
  clientPhone : Option String
  deviceIp : Option String
  agentUser : Option String
  providedClientId : Option String

/-- Result of the notification-poll loop: number of /nextnotification
calls issued, number of interval delays awaited, and the interaction id
and UCID observed from that channel. -/
structure PollRes where
  polls : Nat
  sleeps : Nat
  iid : Option String
  ucid : Option String
deriving DecidableEq

/-- Embedding of the startcall polling loop.  fuel is the number of
attempts still allowed, k the index of the next poll.  The loop guard
re-checks that an interaction id or UCID is still missing; a
VoiceInteractionCreated notification updates both values and breaks
without a further delay; a thrown poll or an empty notification is
followed by one interval delay and the next attempt. -/
def pollLoopGo (pollAt : Nat → PollOutcome) : Nat → Nat → Option String → Option String → PollRes
  | 0, _, i, u => ⟨0, 0, i, u⟩
  | fuel + 1, k, i, u =>
    if i.isSome && u.isSome then ⟨0, 0, i, u⟩
    else
      match pollAt k with
      | .voice oi ou => ⟨1, 0, jsOr oi i, jsOr ou u⟩
      | .noVoiceEvent =>
        let r := pollLoopGo pollAt fuel (k + 1) i u
        ⟨r.polls + 1, r.sleeps + 1, r.iid, r.ucid⟩
      | .pollError =>
        let r := pollLoopGo pollAt fuel (k + 1) i u
        ⟨r.polls + 1, r.sleeps + 1, r.iid, r.ucid⟩

/-- The poll loop as startcall enters it: attempt budget maxAttempts,
starting with no interaction id and no UCID. -/
def pollLoopRun (env : OnexEnv) : PollRes :=
  pollLoopGo env.pollAt env.maxAttempts 0 none none

/-- Row passed to the call-attempt audit insert (insertOnexCallLog). -/
structure CallLogRow where
  ucid : Option String
  ticketNumber : String
  clientPhone : String
  deviceIp : String
  clientId : String
  interactionId : Option String
  agentUser : String
deriving DecidableEq

/-- Embedding of the guard of insertOnexCallLog: the insert is skipped
when the interaction id or the client id is falsy; otherwise the row is
handed to the database (whose own failure is caught and logged). -/
def insertOnexCallLogRun (row : CallLogRow) : List CallLogRow :=
  if row.interactionId.isSome && !(row.clientId == "") then [row] else []

/-- Embedding of ensureClient: a caller-supplied client id is used as
is; otherwise /registerclient is issued and a missing ClientId in the
reply is an error.  The Bool records whether the session was created
here (the createdTemp flag). -/
def ensureClientRes (req : StartcallReq) (env : OnexEnv) : Except Unit (String × Bool) :=
  match req.providedClientId with
  | some c => Except.ok (c, false)
  | none =>
    match env.registerResult with
    | Except.error _ => Except.error ()
    | Except.ok none => Except.error ()
    | Except.ok (some cid) => Except.ok (cid, true)

/-- Number of /registerclient calls ensureClient issues. -/
def registerCallsOf (req : StartcallReq) : Nat :=
  match req.providedClientId with
  | some _ => 0
  | none => 1

/-- Primary JSON response of startcall (fields the route serializes). -/
structure OnexResp where
  status : Nat
  success : Bool
  ucid : Option String
  interactionId : Option String
  clientId : Option String
deriving DecidableEq

/-- Full observable outcome of one startcall attempt: response plus
counters of every remote call issued and the audit rows attempted. -/
structure StartcallOut where
  resp : OnexResp
  registerCalls : Nat
  unregisterCalls : Nat
  makecallCalls : Nat
  pollCalls : Nat
  sleepCalls : Nat
  callLogs : List CallLogRow

/-- The startcall flag that decides teardown: the session is internally
created exactly when the request passes validation, the base URL
builds, no client id was supplied, and /registerclient returned a
usable ClientId. -/
def internallyCreated (req : StartcallReq) (env : OnexEnv) : Bool :=
  jsTruthy req.ticketNumber && jsTruthy req.clientPhone && jsTruthy req.deviceIp
    && env.baseUrlOk && !req.providedClientId.isSome
    && (match env.registerResult with
        | Except.ok (some _) => true
        | _ => false)

/-- Embedding of the GET /startcall route.  Validation failures return
before the try block, so they issue no One-X request at all.  Inside
the try block, ensureClient runs first; the Java UCID monitor is
started only when a station was resolved and its value is consulted
only after polling ends; /voice/makecall is issued next (a throw aborts
to the catch branch); then the notification poll loop runs; the final
UCID prefers the Java monitor value over the notification value; the
call-attempt audit insert is attempted; and the finally block
unregisters the client exactly when this attempt created it. -/
def startcallRun (req : StartcallReq) (env : OnexEnv) : StartcallOut :=
  if !(jsTruthy req.ticketNumber && jsTruthy req.clientPhone && jsTruthy req.deviceIp) then
    ⟨⟨400, false, none, none, none⟩, 0, 0, 0, 0, 0, []⟩
  else if !env.baseUrlOk then
    ⟨⟨400, false, none, none, none⟩, 0, 0, 0, 0, 0, []⟩
  else
    match ensureClientRes req env with
    | Except.error _ =>
      ⟨⟨500, false, none, none, none⟩, registerCallsOf req, 0, 0, 0, 0, []⟩
    | Except.ok (cid, created) =>
      if !env.makecallOk then
        ⟨⟨500, false, none, none, none⟩, registerCallsOf req,
          (if created then 1 else 0), 1, 0, 0, []⟩
      else
        let L := pollLoopRun env
        let side := if env.station.isSome then env.javaUcid else none
        let u := jsOr side L.ucid
        let row : CallLogRow :=
          ⟨u, orEmpty req.ticketNumber, orEmpty req.clientPhone,
            orEmpty req.deviceIp, cid, L.iid, orEmpty req.agentUser⟩
        ⟨⟨200, L.iid.isSome, u, L.iid, some cid⟩, registerCallsOf req,
          (if created then 1 else 0), 1, L.polls, L.sleeps,
          insertOnexCallLogRun row⟩

/- ===== api/acr: date handling ===== -/

/-- A calendar date as the triple a parsed YYYY-MM-DD string denotes. -/
structure Ymd where
  y : Nat
  m : Nat
  d : Nat
deriving DecidableEq

/-- Gregorian leap-year rule (what the JavaScript Date object applies). -/
def isLeapYear (y : Nat) : Bool :=
  (y % 4 == 0 && !(y % 100 == 0)) || (y % 400 == 0)

/-- Days in a month of a given year. -/
def daysInMonth (y m : Nat) : Nat :=
  if m = 2 then (if isLeapYear y then 29 else 28)
  else if m = 4 ∨ m = 6 ∨ m = 9 ∨ m = 11 then 30
  else 31

/-- Calendar successor of a date. -/
def nextDay (x : Ymd) : Ymd :=
  if x.d < daysInMonth x.y x.m then ⟨x.y, x.m, x.d + 1⟩
  else if x.m < 12 then ⟨x.y, x.m + 1, 1⟩
  else ⟨x.y + 1, 1, 1⟩

/-- Adding n days to a date; models the normalization the source gets
from setDate(getDate() + n) for a positive n. -/
def addDays : Ymd → Nat → Ymd
  | x, 0 => x
  | x, n + 1 => addDays (nextDay x) n

/-- Two-digit zero padding. -/
def pad2 (n : Nat) : String :=
  if n < 10 then "0" ++ toString n else toString n

/-- Embedding of toDDMMYY: format a date as DD/MM/YY (last two digits
of the year). -/
def toDDMMYY (x : Ymd) : String :=
  pad2 x.d ++ "/" ++ pad2 x.m ++ "/" ++ pad2 (x.y % 100)

/-- Embedding of parseYMD: trim, require the exact ten-character
YYYY-MM-DD digit shape, bound the year to 1970..2100, the month to
1..12 and the day to 1..31, and finally require the day to exist in
that month (the source checks this by round-tripping through a Date
object, which for these bounds is exactly a day-of-month check). -/
def parseYMD (s0 : String) : Option Ymd :=
  match (jsTrim s0).data with
  | [y1, y2, y3, y4, h1, m1, m2, h2, d1, d2] =>
    if h1 = '-' ∧ h2 = '-' ∧ ([y1, y2, y3, y4, m1, m2, d1, d2].all Char.isDigit) = true then
      let y := digitsToNat [y1, y2, y3, y4]
      let m := digitsToNat [m1, m2]
      let d := digitsToNat [d1, d2]
      if 1970 ≤ y ∧ y ≤ 2100 ∧ 1 ≤ m ∧ m ≤ 12 ∧ 1 ≤ d ∧ d ≤ 31 ∧ d ≤ daysInMonth y m then
        some ⟨y, m, d⟩
      else none
    else none
  | _ => none

/-- Modelled from the spec side, for comparison with the code: the
string is a real calendar date written as YYYY-MM-DD (digit shape,
month 1..12, day within that month; the year is unrestricted). -/
def specRealYMD (t : String) : Bool :=
  match t.data with
  | [y1, y2, y3, y4, h1, m1, m2, h2, d1, d2] =>
    (h1 == '-') && (h2 == '-') && ([y1, y2, y3, y4, m1, m2, d1, d2].all Char.isDigit)
      && (let y := digitsToNat [y1, y2, y3, y4]
          let m := digitsToNat [m1, m2]
          let d := digitsToNat [d1, d2]
          decide (1 ≤ m ∧ m ≤ 12 ∧ 1 ≤ d ∧ d ≤ daysInMonth y m))
  | _ => false

/-- The input-validation errors computeRangeFromQuery can throw; the
routes recognize exactly these messages as client errors. -/
inductive RangeErr where
  | invalidStart
  | invalidEnd
  | invalidWindow
deriving DecidableEq

/-- The window computeRangeFromQuery returns: start and end dates plus
their DD/MM/YY renderings (the p1 and p3 query parameters). -/
structure RangeRes where
  startYmd : Ymd
  endYmd : Ymd
  p1 : String
  p3 : String
deriving DecidableEq

/-- Embedding of computeRangeFromQuery: the start date must parse; an
explicit (truthy) enddate must parse; otherwise a present windowDays
must be a finite positive integer and the end is start plus that many
days; otherwise the end is the start day itself.  Note that windowDays
is consulted only when no truthy enddate is supplied. -/
def computeRangeFromQuery (sd : String) (ed wd : Option String) : Except RangeErr RangeRes :=
  match parseYMD sd with
  | none => Except.error RangeErr.invalidStart
  | some start =>
    if jsTruthy ed then
      match parseYMD (orEmpty ed) with
      | none => Except.error RangeErr.invalidEnd
      | some e => Except.ok ⟨start, e, toDDMMYY start, toDDMMYY e⟩
    else
      match wd with
      | some w =>
        match jsParseInt w with
        | none => Except.error RangeErr.invalidWindow
        | some v =>
          if v ≤ 0 then Except.error RangeErr.invalidWindow
          else
            let e := addDays start v.toNat
            Except.ok ⟨start, e, toDDMMYY start, toDDMMYY e⟩
      | none => Except.ok ⟨start, start, toDDMMYY start, toDDMMYY start⟩

/- ===== api/acr: local media naming ===== -/

/-- Character class the sanitizer keeps: the JavaScript class
[a-zA-Z0-9._-]. -/
def allowedChar (c : Char) : Bool :=
  decide ('a' ≤ c ∧ c ≤ 'z') || decide ('A' ≤ c ∧ c ≤ 'Z')
    || decide ('0' ≤ c ∧ c ≤ '9') || (c == '.') || (c == '_') || (c == '-')

/-- One step of the safeName replacement. -/
def sanitizeChar (c : Char) : Char :=
  if allowedChar c then c else '_'

/-- Embedding of safeName: replace every character outside the allowed
class with an underscore and keep at most the first 128 characters
(after replacement every character is ASCII, so UTF-16 slicing and
character slicing agree). -/
def safeName (s : String) : String :=
  ⟨(s.data.map sanitizeChar).take 128⟩

/-- Joining the media root with a single separator-free file name, as
path.join does for such a component. -/
def pathJoin (root name : String) : String :=
  root ++ "/" ++ name

/-- The cached-artifact path triple. -/
structure LocalPaths where
  raw : String
  wav : String
  meta : String

/-- Embedding of localPathsFor: the three cache paths derived from the
sanitized recording id under the media root. -/
def localPathsFor (root inum : String) : LocalPaths :=
  { raw := pathJoin root (safeName inum ++ ".raw.bin"),
    wav := pathJoin root (safeName inum ++ ".wav"),
    meta := pathJoin root (safeName inum ++ ".json") }

/- ===== api/acr: range-aware streaming ===== -/

/-- The literal the range regular expression starts with. -/
def bytesEqLit : List Char := "bytes=".data

/-- Attempted match of the pattern bytes=(digits)-(digits?) at the head
of the character list (the greedy digit runs of the regular
expression). -/
def matchBytesAt (cs : List Char) : Option (Nat × Option Nat) :=
  if bytesEqLit.isPrefixOf cs then
    let rest := cs.drop 6
    let d1 := rest.takeWhile Char.isDigit
    let r1 := rest.dropWhile Char.isDigit
    if d1 = [] then none
    else
      match r1 with
      | '-' :: r2 =>
        let d2 := r2.takeWhile Char.isDigit
        some (digitsToNat d1, if d2 = [] then none else some (digitsToNat d2))
      | _ => none
  else none

/-- Embedding of the unanchored exec of /bytes=(\d+)-(\d*)/ over the
range header: the leftmost occurrence of the pattern anywhere in the
string, or none. -/
def execBytesRange : List Char → Option (Nat × Option Nat)
  | [] => none
  | c :: rest =>
    match matchBytesAt (c :: rest) with
    | some r => some r
    | none => execBytesRange rest

/-- Modelled from the spec side, for comparison with the code: the
whole header is of the shape bytes=start-end with a decimal start and
an optional decimal end. -/
def rangeShapeSpec (h : String) : Bool :=
  if bytesEqLit.isPrefixOf h.data then
    let rest := h.data.drop 6
    let d1 := rest.takeWhile Char.isDigit
    let r1 := rest.dropWhile Char.isDigit
    !(d1 == [])
      && (match r1 with
          | '-' :: r2 => r2.all Char.isDigit
          | _ => false)
  else false

/-- The response headers streamFile sets and its status. -/
structure StreamOut where
  status : Nat
  contentRange : Option String
  contentLength : Int
deriving DecidableEq

/-- The Content-Range header value. -/
def crStr (s : Nat) (e : Int) (total : Nat) : String :=
  "bytes " ++ toString s ++ "-" ++ toString e ++ "/" ++ toString total

/-- Embedding of streamFile for a local file of the given size: a
truthy range header whose text contains a bytes=start-end match yields
a 206 partial response with Content-Range start-end/total and
Content-Length end-start+1, the end defaulting to size-1 when omitted;
any other request is served whole with status 200. -/
def streamFileRun (total : Nat) (rangeHeader : Option String) : StreamOut :=
  if jsTruthy rangeHeader then
    match execBytesRange (orEmpty rangeHeader).data with
    | some (s, eo) =>
      let e : Int := match eo with
        | some e2 => (e2 : Int)
        | none => (total : Int) - 1
      ⟨206, some (crStr s e total), e - (s : Int) + 1⟩
    | none => ⟨200, none, (total : Int)⟩
  else ⟨200, none, (total : Int)⟩

/- ===== api/acr: media cache (ensureLocalWav) ===== -/

/-- Pointwise update of the modelled filesystem (path to file size). -/
def fsUpdate (fs : String → Option Nat) (p : String) (v : Option Nat) : String → Option Nat :=
  fun q => if q = p then v else fs q

/-- The ensureLocalWav cache test: the transcoded file exists and is
nonempty. -/
def cacheHit (fs : String → Option Nat) (p : String) : Bool :=
  match fs p with
  | some n => decide (0 < n)
  | none => false

/-- Oracle for one cache resolve: where the media root lives, what a
download would produce (the raw size) and what the transcoder would
produce (the wav size); an error models the corresponding hard
failure. -/
structure MediaEnv where
  mediaRoot : String
  downloadResult : Except Unit Nat
  transcodeResult : Except Unit Nat

/-- Result of one ensureLocalWav call: the returned path or the thrown
failure, the filesystem afterwards, and how many downloads and
transcodes were performed. -/
structure WavOut where
  result : Except Unit String
  fs : String → Option Nat
  downloads : Nat
  transcodes : Nat

/-- Embedding of ensureLocalWav: return the cached wav immediately when
it exists nonempty; otherwise download the raw artifact, transcode it
to the wav path, write the metadata sidecar and delete the raw file
(these last two are best-effort in the source and are modelled as
succeeding - their failure is only logged and is invisible to the
claims), and return the wav path. -/
def ensureLocalWavRun (inum : String) (env : MediaEnv) (fs : String → Option Nat) : WavOut :=
  let P := localPathsFor env.mediaRoot inum
  if cacheHit fs P.wav then ⟨Except.ok P.wav, fs, 0, 0⟩
  else
    match env.downloadResult with
    | Except.error _ => ⟨Except.error (), fs, 1, 0⟩
    | Except.ok dl =>
      let fs1 := fsUpdate fs P.raw (some dl)
      match env.transcodeResult with
      | Except.error _ => ⟨Except.error (), fs1, 1, 1⟩
      | Except.ok t =>
        let fs2 := fsUpdate fs1 P.wav (some t)
        let fs3 := fsUpdate fs2 P.meta (some 1)
        let fs4 := fsUpdate fs3 P.raw none
        ⟨Except.ok P.wav, fs4, 1, 1⟩

/- ===== api/acr: archive search data model ===== -/

/-- One parsed archive search result as mapResultFields exposes it: the
inum attribute plus the lowercased field values the routes read.  An
absent or empty XML value is none (the source only uses these values
behind truthiness guards or or-null defaults). -/
structure AcrResult where
  inum : Option String
  startedat : Option String
  duration : Option String
  agents : Option String
  otherparties : Option String
  services : Option String
  skills : Option String
  switchcallid : Option String
deriving DecidableEq

/-- Hexadecimal digit (uppercase) of a value below 16. -/
def hexDigitChar (n : Nat) : Char :=
  if n < 10 then Char.ofNat (48 + n) else Char.ofNat (55 + n)

/-- Characters encodeURIComponent leaves unchanged. -/
def uriUnreserved (c : Char) : Bool :=
  decide ('a' ≤ c ∧ c ≤ 'z') || decide ('A' ≤ c ∧ c ≤ 'Z')
    || decide ('0' ≤ c ∧ c ≤ '9') || (c == '-') || (c == '_') || (c == '.')
    || (c == '!') || (c == '~') || (c == '*') || (c.toNat == 39)
    || (c == '(') || (c == ')')

/-- encodeURIComponent restricted to single-byte characters (every
recording id the routes handle is ASCII; multi-byte UTF-8 expansion is
outside the model). -/
def encodeURIComponentAscii (s : String) : String :=
  ⟨s.data.foldr
    (fun c acc =>
      if uriUnreserved c then c :: acc
      else '%' :: hexDigitChar (c.toNat / 16) :: hexDigitChar (c.toNat % 16) :: acc)
    []⟩

/-- The raw archive replay URL and the proxied middleware URL for a
recording id. -/
structure ReplayUrls where
  raw : String
  proxied : String

/-- Embedding of buildReplayUrls. -/
def buildReplayUrls (base inum : String) : ReplayUrls :=
  { raw := base ++ "?command=replay&id=" ++ encodeURIComponentAscii inum,
    proxied := "/api/acr/replay/" ++ encodeURIComponentAscii inum }

/-- Row handed to the recording audit insert (insertAcrRow) and, for
searchByNumber, also the response item shape. -/
structure AcrPayload where
  ucid : Option String
  number : Option String
  inum : String
  startedAt : Option String
  durationSec : Option Int
  agents : Option String
  otherParties : Option String
  services : Option String
  skills : Option String
  playbackUrl : String
  rawPlaybackUrl : Option String
deriving DecidableEq

/-- Embedding of the searchByNumber result mapping: a record without an
inum maps to nothing (it is dropped by the filter); otherwise the
response item is built, including the playback URLs and the ucid taken
from the switchcallid field. -/
def toSbnItem (base number : String) (r : AcrResult) : Option AcrPayload :=
  match r.inum with
  | none => none
  | some inum =>
    some
      { ucid := r.switchcallid, number := some number, inum := inum,
        startedAt := r.startedat,
        durationSec := r.duration.bind jsParseInt,
        agents := r.agents, otherParties := r.otherparties,
        services := r.services, skills := r.skills,
        playbackUrl := (buildReplayUrls base inum).proxied,
        rawPlaybackUrl := some ((buildReplayUrls base inum).raw) }

/-- Sort key of a response item: the epoch value of its start time,
with a missing start time read as epoch zero (started_at or-zero
through the Date constructor). -/
def startKeyOf (dateMs : String → Int) (p : AcrPayload) : Int :=
  match p.startedAt with
  | some s => dateMs s
  | none => 0

/-- Stable descending insertion: the new element goes in front of the
first strictly older element, hence after every at-least-as-new one. -/
def insertDesc {α : Type} (key : α → Int) (x : α) : List α → List α
  | [] => [x]
  | y :: ys => if key y < key x then x :: y :: ys else y :: insertDesc key x ys

/-- Stable sort, newest first: the model of the stable JavaScript
Array sort under the comparator dateOf(b) - dateOf(a). -/
def sortDesc {α : Type} (key : α → Int) (l : List α) : List α :=
  l.foldl (fun acc x => insertDesc key x acc) []

/- ===== api/acr: routes ===== -/

/-- Oracle environment for the archive routes: the archive base URL,
the parsed outcome of the search request (error models a thrown
request or unparseable body), the epoch value the Date constructor
gives each start-time string, the media configuration, and the status
the replay proxy would relay. -/
structure AcrEnv where
  acrBaseUrl : String
  searchOutcome : Except Unit (List AcrResult)
  dateMs : String → Int
  mediaRoot : String
  useLocalDefault : Bool
  downloadResult : Except Unit Nat
  transcodeResult : Except Unit Nat
  proxyStatus : Nat

/-- Query parameters of the archive routes; a missing parameter is
none. -/
structure AcrQuery where
  ucid : Option String
  number : Option String
  startdate : Option String
  enddate : Option String
  windowDays : Option String
  starttime : Option String
  endtime : Option String
  limit : Option String
  redirect : Option String
  localFlag : Option String
  rangeHeader : Option String

/-- Embedding of the searchByNumber limit logic: parseInt of the limit
parameter (defaulted to the string zero when absent or empty), with a
non-finite or negative result replaced by zero. -/
def sbnLimit (o : Option String) : Nat :=
  match jsParseInt (if jsTruthy o then orEmpty o else "0") with
  | none => 0
  | some v => if v < 0 then 0 else v.toNat

/-- Observable outcome of GET /searchByNumber: status, the found count,
the single item or the limited list, the number of archive search
requests issued, and the audit rows attempted. -/
structure SbnOut where
  status : Nat
  found : Option Nat
  item : Option AcrPayload
  items : Option (List AcrPayload)
  searchCalls : Nat
  audits : List AcrPayload

/-- Embedding of GET /searchByNumber.  Missing parameters and window
validation reject with 400 before the archive request.  Parsed results
are mapped, records without an inum are dropped, the survivors are
sorted newest first; with a zero limit only the first (newest) record
is returned and audited - when no record survives the filter, the
source reads a property of an undefined first element, and the thrown
TypeError is caught as a 502 (the rejected fire-and-forget insert never
reaches the database); with a positive limit the first limit records
are returned and each is audited. -/
def searchByNumberRun (q : AcrQuery) (env : AcrEnv) : SbnOut :=
  let number := jsTrim (orEmpty q.number)
  let sd := jsTrim (orEmpty q.startdate)
  if number = "" ∨ sd = "" then ⟨400, none, none, none, 0, []⟩
  else
    match computeRangeFromQuery sd q.enddate q.windowDays with
    | Except.error _ => ⟨400, none, none, none, 0, []⟩
    | Except.ok _ =>
      let limit := sbnLimit q.limit
      match env.searchOutcome with
      | Except.error _ => ⟨502, none, none, none, 1, []⟩
      | Except.ok results =>
        if results = [] then ⟨200, some 0, none, some [], 1, []⟩
        else
          let items0 := results.filterMap (toSbnItem env.acrBaseUrl number)
          let sorted := sortDesc (startKeyOf env.dateMs) items0
          let total := sorted.length
          if limit = 0 then
            match sorted.head? with
            | none => ⟨502, none, none, none, 1, []⟩
            | some first => ⟨200, some total, some first, none, 1, [first]⟩
          else
            let limited := sorted.take limit
            ⟨200, some total, none, some limited, 1, limited⟩

/-- Observable outcome of GET /find. -/
structure FindOut where
  status : Nat
  found : Option Nat
  item : Option AcrPayload
  searchCalls : Nat
  audits : List AcrPayload

/-- Embedding of GET /find: validation, then one archive search; no
result is an empty 200; a first result without an inum is a 502; and
otherwise the payload of the first result is returned and audited
(found reports the raw result count). -/
def findRun (q : AcrQuery) (env : AcrEnv) : FindOut :=
  let ucid := jsTrim (orEmpty q.ucid)
  let sd := jsTrim (orEmpty q.startdate)
  if ucid = "" ∨ sd = "" then ⟨400, none, none, 0, []⟩
  else
    match computeRangeFromQuery sd q.enddate q.windowDays with
    | Except.error _ => ⟨400, none, none, 0, []⟩
    | Except.ok _ =>
      match env.searchOutcome with
      | Except.error _ => ⟨502, none, none, 1, []⟩
      | Except.ok results =>
        match results with
        | [] => ⟨200, some 0, none, 1, []⟩
        | r0 :: _ =>
          match r0.inum with
          | none => ⟨502, none, none, 1, []⟩
          | some inum =>
            let urls := buildReplayUrls env.acrBaseUrl inum
            let payload : AcrPayload :=
              { ucid := none, number := none, inum := inum,
                startedAt := r0.startedat,
                durationSec := r0.duration.bind jsParseInt,
                agents := r0.agents, otherParties := r0.otherparties,
                services := r0.services, skills := r0.skills,
                playbackUrl := urls.proxied, rawPlaybackUrl := some urls.raw }
            ⟨200, some results.length, some payload, 1, [payload]⟩

/-- The redirect query flag: exactly the strings 1 and true. -/
def redirectFlagOf (o : Option String) : Bool :=
  match o with
  | some s => (s == "1") || (s == "true")
  | none => false

/-- The local query flag test /^1|true$/i: the string starts with the
digit one, or ends with the word true in any letter case. -/
def jsBoolFlag (s : String) : Bool :=
  match s.data with
  | '1' :: _ => true
  | _ => ("true".data).isSuffixOf (s.data.map Char.toLower)

/-- The audit row the replay proxy handler inserts. -/
def proxyPayloadFor (base : String) (uc : Option String) (inum : String) : AcrPayload :=
  { ucid := uc, number := none, inum := inum, startedAt := none,
    durationSec := none, agents := none, otherParties := none,
    services := none, skills := none,
    playbackUrl := (buildReplayUrls base inum).proxied, rawPlaybackUrl := none }

/-- Observable outcome of GET /replayByUcid: the response status, the
local stream headers when a cached file was served, the outbound
request counters (archive search, replay proxy, download), the
transcode count, the audit rows attempted, and the filesystem
afterwards. -/
structure ReplayOut where
  status : Nat
  stream : Option StreamOut
  searchCalls : Nat
  proxyCalls : Nat
  downloads : Nat
  transcodes : Nat
  audits : List AcrPayload
  fs : String → Option Nat

/-- Embedding of GET /replayByUcid: validation, one archive search, a
404 on no result, a 502 on a missing inum; then either a redirect to
the raw URL, or (preferring local by flag or default) a cache resolve
followed by range streaming of the cached file, falling back to the
remote proxy (which attempts its own audit row) when the resolve
fails. -/
def replayByUcidRun (q : AcrQuery) (env : AcrEnv) (fs0 : String → Option Nat) : ReplayOut :=
  let ucid := jsTrim (orEmpty q.ucid)
  let sd := jsTrim (orEmpty q.startdate)
  if ucid = "" ∨ sd = "" then ⟨400, none, 0, 0, 0, 0, [], fs0⟩
  else
    match computeRangeFromQuery sd q.enddate q.windowDays with
    | Except.error _ => ⟨400, none, 0, 0, 0, 0, [], fs0⟩
    | Except.ok _ =>
      match env.searchOutcome with
      | Except.error _ => ⟨502, none, 1, 0, 0, 0, [], fs0⟩
      | Except.ok results =>
        match results with
        | [] => ⟨404, none, 1, 0, 0, 0, [], fs0⟩
        | r0 :: _ =>
          match r0.inum with
          | none => ⟨502, none, 1, 0, 0, 0, [], fs0⟩
          | some inum =>
            let urls := buildReplayUrls env.acrBaseUrl inum
            let payload : AcrPayload :=
              { ucid := some ucid, number := none, inum := inum,
                startedAt := r0.startedat,
                durationSec := r0.duration.bind jsParseInt,
                agents := r0.agents, otherParties := r0.otherparties,
                services := r0.services, skills := r0.skills,
                playbackUrl := urls.proxied, rawPlaybackUrl := none }
            if redirectFlagOf q.redirect then ⟨302, none, 1, 0, 0, 0, [payload], fs0⟩
            else
              let preferLocal := match q.localFlag with
                | some s => jsBoolFlag s
                | none => env.useLocalDefault
              let proxyRow := proxyPayloadFor env.acrBaseUrl
                (if jsTruthy q.ucid then some (orEmpty q.ucid) else none) inum
              if preferLocal then
                let w := ensureLocalWavRun inum ⟨env.mediaRoot, env.downloadResult, env.transcodeResult⟩ fs0
                match w.result with
                | Except.ok wavPath =>
                  let total := (w.fs wavPath).getD 0
                  let s := streamFileRun total q.rangeHeader
                  ⟨s.status, some s, 1, 0, w.downloads, w.transcodes, [payload], w.fs⟩
                | Except.error _ =>
                  ⟨env.proxyStatus, none, 1, 1, w.downloads, w.transcodes, [payload, proxyRow], w.fs⟩
              else
                ⟨env.proxyStatus, none, 1, 1, 0, 0, [payload, proxyRow], fs0⟩

/- ===== claim-side validation predicate and concrete fixtures ===== -/

/-- The invalid-input condition of the archive-search validation claim,
stated with the spec-side real-date predicate: a start date that is not
a real YYYY-MM-DD calendar date, a truthy end date that is not one, or
(when no truthy end date is given) a windowDays parameter parsing to a
non-positive integer. -/
def invalidArchiveDates (q : AcrQuery) : Prop :=
  specRealYMD (jsTrim (orEmpty q.startdate)) = false
  ∨ (jsTruthy q.enddate = true ∧ specRealYMD (jsTrim (orEmpty q.enddate)) = false)
  ∨ (jsTruthy q.enddate = false
      ∧ ∃ w v, q.windowDays = some w ∧ jsParseInt w = some v ∧ v ≤ 0)

/-- Fixture: a number search with an unreal start date (month 13). -/
def qBadMonth : AcrQuery :=
  ⟨none, some ("079"), some ("2024-13-01"), none, none, none, none, none, none, none, none⟩

/-- Fixture: a number search with valid start and end dates and a
negative windowDays. -/
def qWindowCE : AcrQuery :=
  ⟨none, some ("079"), some ("2024-01-01"), some ("2024-01-02"), some ("-5"),
    none, none, none, none, none, none⟩

/-- Fixture: a number search with a valid start date and no limit. -/
def qNum : AcrQuery :=
  ⟨none, some ("079"), some ("2024-01-01"), none, none, none, none, none, none, none, none⟩

/-- Fixture: the same search with limit two. -/
def qNumLimit2 : AcrQuery :=
  ⟨none, some ("079"), some ("2024-01-01"), none, none, none, none, some ("2"), none, none, none⟩

/-- Fixture: an archive environment whose search returns no records. -/
def envEmptyW : AcrEnv :=
  ⟨"http://acr/search", Except.ok [], fun _ => 0, "/media", true, Except.ok 1, Except.ok 1, 200⟩

/-- Fixture: a parsed archive record with no recording identifier. -/
def recNoInum : AcrResult :=
  ⟨none, some ("2024-01-01 10:00:00"), none, none, none, none, none, none⟩

/-- Fixture: an environment whose single search result lacks its
identifier. -/
def envNoInum : AcrEnv :=
  ⟨"http://acr/search", Except.ok [recNoInum], fun _ => 0, "/media", true,
    Except.ok 1, Except.ok 1, 200⟩

/-- Fixture: an archive record with identifier i and start-time text t. -/
def recW (i t : String) : AcrResult :=
  ⟨some i, some t, none, none, none, none, none, none⟩

/-- Fixture: start-time texts T1, T2, T3 parse to increasing epochs. -/
def dateMsW : String → Int :=
  fun s => if s = "T1" then 1 else if s = "T2" then 2 else if s = "T3" then 3 else 0

/-- Fixture: an environment returning three records with start times
T1 < T2 < T3, in archive order I1, I2, I3. -/
def envThreeW : AcrEnv :=
  ⟨"http://acr/search", Except.ok [recW ("I1") ("T1"), recW ("I2") ("T2"), recW ("I3") ("T3")],
    dateMsW, "/media", true, Except.ok 1, Except.ok 1, 200⟩

/-- Fixture: the response item the number search builds for identifier
i and start-time text t under the three-record environment. -/
def itemW (i t : String) : AcrPayload :=
  ⟨none, some ("079"), i, some t, none, none, none, none, none,
    "/api/acr/replay/" ++ i, some ("http://acr/search?command=replay&id=" ++ i)⟩

/- ===== safety predicates for cache paths ===== -/

/-- No path separator occurs in the string. -/
def noSepChars (n : String) : Bool :=
  n.data.all (fun c => !(c == '/') && !(c == '\\'))

/-- The string is a plain file-name component: separator-free and not
one of the special names, so joining it under a root directory yields a
file directly inside that directory. -/
def plainFileComponent (n : String) : Bool :=
  noSepChars n && !(n == "") && !(n == ".") && !(n == "..")

/- ===== helper lemmas ===== -/

/-- A list is a Boolean prefix of itself followed by anything. -/
theorem isPrefixOf_append_self (l t : List Char) : l.isPrefixOf (l ++ t) = true := by
  induction l with
  | nil => simp [List.isPrefixOf]
  | cons a as ih => simp [List.isPrefixOf, ih]

/-- dropWhile is idempotent. -/
theorem dropWhile_dropWhile (p : Char → Bool) (l : List Char) :
    (l.dropWhile p).dropWhile p = l.dropWhile p := by
  induction l with
  | nil => rfl
  | cons a t ih =>
    by_cases h : p a = true
    · simp [List.dropWhile, h, ih]
    · simp [List.dropWhile, h]

/-- The head surviving dropWhile fails the predicate. -/
theorem head_dropWhile_false (p : Char → Bool) :
    ∀ (l : List Char) (c : Char) (t : List Char), l.dropWhile p = c :: t → p c = false := by
  intro l
  induction l with
  | nil => intro c t h; simp [List.dropWhile] at h
  | cons a l ih =>
    intro c t h
    by_cases ha : p a = true
    · simp [List.dropWhile, ha] at h
      exact ih c t h
    · simp [List.dropWhile, ha] at h
      rw [← h.1]
      exact eq_false_of_ne_true ha

/-- dropWhile keeps a final element failing the predicate. -/
theorem dropWhile_append_last (p : Char → Bool) (c : Char) (hc : p c = false) :
    ∀ xs : List Char, ∃ ys, (xs ++ [c]).dropWhile p = ys ++ [c] := by
  intro xs
  induction xs with
  | nil => exact ⟨[], by simp [List.dropWhile, hc]⟩
  | cons a t ih =>
    by_cases ha : p a = true
    · obtain ⟨ys, hy⟩ := ih
      exact ⟨ys, by simp [List.dropWhile, ha]; exact hy⟩
    · exact ⟨a :: t, by simp [List.dropWhile, ha]⟩

/-- Core of trim idempotence at the list level. -/
theorem trimData_idem (p : Char → Bool) (l : List Char) :
    ((((l.dropWhile p).reverse.dropWhile p).reverse.dropWhile p).reverse.dropWhile p).reverse
      = ((l.dropWhile p).reverse.dropWhile p).reverse := by
  cases hm : l.dropWhile p with
  | nil => simp
  | cons c t =>
    have hc : p c = false := head_dropWhile_false p l c t hm
    obtain ⟨ys, hy⟩ := dropWhile_append_last p c hc t.reverse
    have hr : ((c :: t).reverse.dropWhile p).reverse = c :: ys.reverse := by
      simp only [List.reverse_cons]
      rw [hy]; simp
    rw [hr]
    have h1 : (c :: ys.reverse).dropWhile p = c :: ys.reverse := by
      simp [List.dropWhile, hc]
    rw [h1]
    have h2 : (c :: ys.reverse).reverse = ys ++ [c] := by simp
    rw [h2]
    have h3 : (ys ++ [c]).dropWhile p = ys ++ [c] := by
      rw [← hy, dropWhile_dropWhile, hy]
    rw [h3]
    simp

/-- jsTrim is idempotent. -/
theorem jsTrim_idem (s : String) : jsTrim (jsTrim s) = jsTrim s := by
  unfold jsTrim
  congr 1
  exact trimData_idem Char.isWhitespace s.data

/-- C10: the dial-prefix normalization is idempotent; with a nonempty
configured prefix the result always starts with the prefix and an
already-prefixed number is returned unchanged; with an empty prefix
the input is returned unchanged. -/
theorem c10_withPrefix_normalization (pfx p : String) :
    withPrefixFn pfx (withPrefixFn pfx p) = withPrefixFn pfx p
    ∧ (pfx ≠ "" → (pfx.data.isPrefixOf (withPrefixFn pfx p).data) = true)
    ∧ (pfx ≠ "" → pfx.data.isPrefixOf p.data = true → withPrefixFn pfx p = p)
    ∧ (pfx = "" → withPrefixFn pfx p = p) := by
  have hdata : (pfx ++ p).data = pfx.data ++ p.data := rfl
  by_cases h : pfx = ""
  · simp [withPrefixFn, h]
  · by_cases hpre : pfx.data.isPrefixOf p.data = true
    · simp [withPrefixFn, h, hpre]
    · have hpre2 : pfx.data.isPrefixOf (pfx ++ p).data = true := by
        rw [hdata]; exact isPrefixOf_append_self _ _
      refine ⟨?_, ?_, ?_, ?_⟩
      · simp [withPrefixFn, h, hpre, hpre2]
      · intro _
        simp [withPrefixFn, h, hpre, hpre2]
      · intro _ hc
        exact absurd hc hpre
      · intro hc
        exact absurd hc h

/-- C10 witness at concrete inputs. -/
theorem c10_witness :
    withPrefixFn ("9") (withPrefixFn ("9") ("123")) = withPrefixFn ("9") ("123")
    ∧ withPrefixFn ("9") ("123") = "9123"
    ∧ withPrefixFn ("9") ("9123") = "9123"
    ∧ withPrefixFn ("") ("123") = "123" := by
  have h1 := c10_withPrefix_normalization ("9") ("123")
  have h2 := c10_withPrefix_normalization ("9") ("9123")
  have h3 := c10_withPrefix_normalization ("") ("123")
  refine ⟨h1.1, by decide, h2.2.2.1 (by decide) (by decide), h3.2.2.2 rfl⟩

/-- The sanitizer only emits allowed characters. -/
theorem allowedChar_sanitizeChar (c : Char) : allowedChar (sanitizeChar c) = true := by
  unfold sanitizeChar
  by_cases h : allowedChar c = true
  · rw [if_pos h]; exact h
  · rw [if_neg h]; decide

/-- Every character of a sanitized name is allowed. -/
theorem safeName_all_allowed (s : String) : (safeName s).data.all allowedChar = true := by
  show ((s.data.map sanitizeChar).take 128).all allowedChar = true
  rw [List.all_eq_true]
  intro x hx
  have hx2 : x ∈ s.data.map sanitizeChar := List.mem_of_mem_take hx
  obtain ⟨c, _, rfl⟩ := List.mem_map.mp hx2
  exact allowedChar_sanitizeChar c

/-- Allowed characters are never path separators. -/
theorem allowedChar_not_sep (c : Char) (h : allowedChar c = true) :
    (!(c == '/') && !(c == '\\')) = true := by
  have h1 : c ≠ '/' := by rintro rfl; exact absurd h (by decide)
  have h2 : c ≠ '\\' := by rintro rfl; exact absurd h (by decide)
  simp [h1, h2]

/-- A fully allowed string followed by a separator-free suffix is
separator-free. -/
theorem noSepChars_append_of (a b : String) (ha : a.data.all allowedChar = true)
    (hb : noSepChars b = true) : noSepChars (a ++ b) = true := by
  unfold noSepChars at hb ⊢
  rw [show (a ++ b).data = a.data ++ b.data from rfl, List.all_append]
  rw [Bool.and_eq_true]
  refine ⟨?_, hb⟩
  rw [List.all_eq_true] at ha ⊢
  intro c hc
  exact allowedChar_not_sep c (ha c hc)

/-- A sanitized name plus a separator-free suffix longer than two
characters is a plain file-name component. -/
theorem plainFileComponent_of (a suf : String) (ha : a.data.all allowedChar = true)
    (hsuf : noSepChars suf = true) (hlen : 2 < suf.length) :
    plainFileComponent (a ++ suf) = true := by
  have hlen2 : 2 < (a ++ suf).length := by
    rw [String.length_append]; omega
  have h0 : a ++ suf ≠ "" := by
    intro h; rw [h] at hlen2; exact absurd hlen2 (by decide)
  have h1 : a ++ suf ≠ "." := by
    intro h; rw [h] at hlen2; exact absurd hlen2 (by decide)
  have h2 : a ++ suf ≠ ".." := by
    intro h; rw [h] at hlen2; exact absurd hlen2 (by decide)
  unfold plainFileComponent
  simp [noSepChars_append_of a suf ha hsuf, h0, h1, h2]

/-- C9: the sanitized cache base name contains only characters from the
allowed class and is at most 128 characters long, and each of the three
derived cache paths joins the media root with a plain separator-free
file-name component, so no recording identifier can make a cache path
escape the media root. -/
theorem c9_safeName_confinement (root inum : String) :
    ((safeName inum).data.all allowedChar = true)
    ∧ (safeName inum).length ≤ 128
    ∧ (localPathsFor root inum).raw = pathJoin root (safeName inum ++ ".raw.bin")
    ∧ (localPathsFor root inum).wav = pathJoin root (safeName inum ++ ".wav")
    ∧ (localPathsFor root inum).meta = pathJoin root (safeName inum ++ ".json")
    ∧ plainFileComponent (safeName inum ++ ".raw.bin") = true
    ∧ plainFileComponent (safeName inum ++ ".wav") = true
    ∧ plainFileComponent (safeName inum ++ ".json") = true := by
  refine ⟨safeName_all_allowed inum, ?_, rfl, rfl, rfl, ?_, ?_, ?_⟩
  · show ((inum.data.map sanitizeChar).take 128).length ≤ 128
    exact List.length_take_le 128 _
  · exact plainFileComponent_of _ _ (safeName_all_allowed inum) (by decide) (by decide)
  · exact plainFileComponent_of _ _ (safeName_all_allowed inum) (by decide) (by decide)
  · exact plainFileComponent_of _ _ (safeName_all_allowed inum) (by decide) (by decide)

/- ===== poll-loop lemmas ===== -/

/-- The loop never polls more often than its fuel allows. -/
theorem pollLoopGo_polls_le (pollAt : Nat → PollOutcome) :
    ∀ (fuel k : Nat) (i u : Option String), (pollLoopGo pollAt fuel k i u).polls ≤ fuel := by
  intro fuel
  induction fuel with
  | zero => intro k i u; simp [pollLoopGo]
  | succ n ih =>
    intro k i u
    by_cases h : (i.isSome && u.isSome) = true
    · simp [pollLoopGo, h]
    · cases hp : pollAt k with
      | voice oi ou => simp [pollLoopGo, h, hp]
      | noVoiceEvent =>
        have hrec := ih (k + 1) i u
        simp [pollLoopGo, h, hp]
        omega
      | pollError =>
        have hrec := ih (k + 1) i u
        simp [pollLoopGo, h, hp]
        omega

/-- If the j-th poll of the loop run is a voice notification carrying
both identifiers, the loop stops right there: it has made exactly j+1
polls and j interval delays. -/
theorem pollLoopGo_stop_on_voiceBoth (pollAt : Nat → PollOutcome) :
    ∀ (fuel k j : Nat), j < (pollLoopGo pollAt fuel k none none).polls →
      (pollAt (k + j)).isVoiceBoth = true →
      (pollLoopGo pollAt fuel k none none).polls = j + 1
      ∧ (pollLoopGo pollAt fuel k none none).sleeps = j := by
  intro fuel
  induction fuel with
  | zero => intro k j hj _; simp [pollLoopGo] at hj
  | succ n ih =>
    intro k j hj hv
    cases hp : pollAt k with
    | voice oi ou =>
      have hpolls : (pollLoopGo pollAt (n + 1) k none none).polls = 1 := by
        simp [pollLoopGo, hp]
      have hsleeps : (pollLoopGo pollAt (n + 1) k none none).sleeps = 0 := by
        simp [pollLoopGo, hp]
      rw [hpolls] at hj
      have hj0 : j = 0 := by omega
      subst hj0
      exact ⟨hpolls, hsleeps⟩
    | noVoiceEvent =>
      have hpolls : (pollLoopGo pollAt (n + 1) k none none).polls
          = (pollLoopGo pollAt n (k + 1) none none).polls + 1 := by
        simp [pollLoopGo, hp]
      have hsleeps : (pollLoopGo pollAt (n + 1) k none none).sleeps
          = (pollLoopGo pollAt n (k + 1) none none).sleeps + 1 := by
        simp [pollLoopGo, hp]
      cases j with
      | zero =>
        rw [Nat.add_zero, hp] at hv
        exact absurd hv (by decide)
      | succ jj =>
        have hv2 : (pollAt ((k + 1) + jj)).isVoiceBoth = true := by
          have hidx : (k + 1) + jj = k + (jj + 1) := by omega
          rw [hidx]; exact hv
        have hjj : jj < (pollLoopGo pollAt n (k + 1) none none).polls := by
          rw [hpolls] at hj; omega
        obtain ⟨h1, h2⟩ := ih (k + 1) jj hjj hv2
        refine ⟨?_, ?_⟩
        · rw [hpolls, h1]
        · rw [hsleeps, h2]
    | pollError =>
      have hpolls : (pollLoopGo pollAt (n + 1) k none none).polls
          = (pollLoopGo pollAt n (k + 1) none none).polls + 1 := by
        simp [pollLoopGo, hp]
      have hsleeps : (pollLoopGo pollAt (n + 1) k none none).sleeps
          = (pollLoopGo pollAt n (k + 1) none none).sleeps + 1 := by
        simp [pollLoopGo, hp]
      cases j with
      | zero =>
        rw [Nat.add_zero, hp] at hv
        exact absurd hv (by decide)
      | succ jj =>
        have hv2 : (pollAt ((k + 1) + jj)).isVoiceBoth = true := by
          have hidx : (k + 1) + jj = k + (jj + 1) := by omega
          rw [hidx]; exact hv
        have hjj : jj < (pollLoopGo pollAt n (k + 1) none none).polls := by
          rw [hpolls] at hj; omega
        obtain ⟨h1, h2⟩ := ih (k + 1) jj hjj hv2
        refine ⟨?_, ?_⟩
        · rw [hpolls, h1]
        · rw [hsleeps, h2]

/-- When no poll in the budget yields a voice notification - in
particular when every poll throws - the loop runs the whole budget:
every attempt is used and every attempt is followed by a delay. -/
theorem pollLoopGo_all_nonvoice (pollAt : Nat → PollOutcome) :
    ∀ (fuel k : Nat), (∀ j, j < fuel → (pollAt (k + j)).isVoice = false) →
      pollLoopGo pollAt fuel k none none = ⟨fuel, fuel, none, none⟩ := by
  intro fuel
  induction fuel with
  | zero => intro k _; rfl
  | succ n ih =>
    intro k h
    have h0 : (pollAt k).isVoice = false := by
      have := h 0 (by omega)
      rwa [Nat.add_zero] at this
    cases hp : pollAt k with
    | voice oi ou => rw [hp] at h0; simp [PollOutcome.isVoice] at h0
    | noVoiceEvent =>
      have hrec := ih (k + 1) (fun j hj => by
        have hidx : k + (j + 1) = (k + 1) + j := by omega
        have := h (j + 1) (by omega)
        rwa [hidx] at this)
      simp [pollLoopGo, hp, hrec]
    | pollError =>
      have hrec := ih (k + 1) (fun j hj => by
        have hidx : k + (j + 1) = (k + 1) + j := by omega
        have := h (j + 1) (by omega)
        rwa [hidx] at this)
      simp [pollLoopGo, hp, hrec]

/- ===== C1: session teardown ===== -/

/-- C1: over every exit path of a startcall attempt, the unregister
call is issued exactly once when the session was created internally and
never otherwise; in particular a caller-supplied session is never torn
down. -/
theorem c1_teardown_exactly_once (req : StartcallReq) (env : OnexEnv) :
    (startcallRun req env).unregisterCalls = (if internallyCreated req env then 1 else 0)
    ∧ (req.providedClientId.isSome = true → (startcallRun req env).unregisterCalls = 0) := by
  have main : (startcallRun req env).unregisterCalls
      = (if internallyCreated req env then 1 else 0) := by
    unfold startcallRun internallyCreated ensureClientRes registerCallsOf
    cases ht : jsTruthy req.ticketNumber <;>
    cases hp : jsTruthy req.clientPhone <;>
    cases hd : jsTruthy req.deviceIp <;>
    cases hb : env.baseUrlOk <;>
    cases hcid : req.providedClientId <;>
    rcases hr : env.registerResult with u | (_ | cid) <;>
    cases hm : env.makecallOk <;>
    simp_all
  refine ⟨main, ?_⟩
  intro h
  have hfalse : internallyCreated req env = false := by
    unfold internallyCreated
    simp [h]
  rw [main, hfalse]
  rfl

/-- C1 witness: a concrete internally-created attempt tears down once
on the success path and once on a thrown makecall, and a concrete
caller-supplied session is never torn down. -/
theorem c1_witness :
    (startcallRun
      ⟨some ("T1"), some ("555"), some ("10.0.0.1"), none, none⟩
      ⟨true, Except.ok (some ("CLw")), true, fun _ => PollOutcome.noVoiceEvent, 2, none, none, ""⟩).unregisterCalls = 1
    ∧ (startcallRun
      ⟨some ("T1"), some ("555"), some ("10.0.0.1"), none, none⟩
      ⟨true, Except.ok (some ("CLw")), false, fun _ => PollOutcome.noVoiceEvent, 2, none, none, ""⟩).unregisterCalls = 1
    ∧ (startcallRun
      ⟨some ("T1"), some ("555"), some ("10.0.0.1"), none, some ("EXT")⟩
      ⟨true, Except.ok (some ("CLw")), true, fun _ => PollOutcome.noVoiceEvent, 2, none, none, ""⟩).unregisterCalls = 0 := by
  refine ⟨?_, ?_, ?_⟩
  · have h := (c1_teardown_exactly_once
      ⟨some ("T1"), some ("555"), some ("10.0.0.1"), none, none⟩
      ⟨true, Except.ok (some ("CLw")), true, fun _ => PollOutcome.noVoiceEvent, 2, none, none, ""⟩).1
    rw [h]; decide
  · have h := (c1_teardown_exactly_once
      ⟨some ("T1"), some ("555"), some ("10.0.0.1"), none, none⟩
      ⟨true, Except.ok (some ("CLw")), false, fun _ => PollOutcome.noVoiceEvent, 2, none, none, ""⟩).1
    rw [h]; decide
  · exact (c1_teardown_exactly_once
      ⟨some ("T1"), some ("555"), some ("10.0.0.1"), none, some ("EXT")⟩
      ⟨true, Except.ok (some ("CLw")), true, fun _ => PollOutcome.noVoiceEvent, 2, none, none, ""⟩).2 rfl

/- ===== C3: polling is bounded and stops early ===== -/

/-- C3: every startcall attempt issues at most the configured maximum
number of notification polls; a poll that observes both an interaction
id and a UCID ends the loop immediately with no further poll and no
further interval delay; and a budget of polls none of which yields a
voice notification (in particular all throwing) is used in full, each
attempt counting once and each followed by its delay. -/
theorem c3_poll_bounds (req : StartcallReq) (env : OnexEnv)
    (pollAt : Nat → PollOutcome) (maxA : Nat) :
    (startcallRun req env).pollCalls ≤ env.maxAttempts
    ∧ (∀ j, j < (pollLoopGo pollAt maxA 0 none none).polls →
        (pollAt j).isVoiceBoth = true →
        (pollLoopGo pollAt maxA 0 none none).polls = j + 1
        ∧ (pollLoopGo pollAt maxA 0 none none).sleeps = j)
    ∧ ((∀ j, j < maxA → (pollAt j).isVoice = false) →
        pollLoopGo pollAt maxA 0 none none = ⟨maxA, maxA, none, none⟩) := by
  refine ⟨?_, ?_, ?_⟩
  · have hle := pollLoopGo_polls_le env.pollAt env.maxAttempts 0 none none
    unfold startcallRun
    cases ht : jsTruthy req.ticketNumber <;>
    cases hp : jsTruthy req.clientPhone <;>
    cases hd : jsTruthy req.deviceIp <;>
    cases hb : env.baseUrlOk <;>
    cases hcid : req.providedClientId <;>
    rcases hr : env.registerResult with u | (_ | cid) <;>
    cases hm : env.makecallOk <;>
    simp_all [ensureClientRes, pollLoopRun]
  · intro j hj hv
    have h := pollLoopGo_stop_on_voiceBoth pollAt maxA 0 j hj (by
      rw [Nat.zero_add]; exact hv)
    exact h
  · intro h
    exact pollLoopGo_all_nonvoice pollAt maxA 0 (fun j hj => by
      have := h j hj
      rwa [Nat.zero_add])

/-- C3 witness: with a first poll that throws and a second voice
notification carrying both identifiers, the loop makes exactly two
polls and one delay out of a budget of five; with every poll throwing,
a budget of three is used in full; and a concrete attempt polls no more
often than its configured maximum. -/
theorem c3_witness :
    ((pollLoopGo (fun k => if k = 0 then PollOutcome.pollError
        else PollOutcome.voice (some ("VI9")) (some ("U9"))) 5 0 none none).polls = 2
      ∧ (pollLoopGo (fun k => if k = 0 then PollOutcome.pollError
        else PollOutcome.voice (some ("VI9")) (some ("U9"))) 5 0 none none).sleeps = 1)
    ∧ pollLoopGo (fun _ => PollOutcome.pollError) 3 0 none none = ⟨3, 3, none, none⟩
    ∧ (startcallRun
        ⟨some ("T1"), some ("555"), some ("10.0.0.1"), none, none⟩
        ⟨true, Except.ok (some ("CLw")), true, fun _ => PollOutcome.noVoiceEvent, 2, none, none, ""⟩).pollCalls
      ≤ (⟨true, Except.ok (some ("CLw")), true, fun _ => PollOutcome.noVoiceEvent, 2, none, none, ""⟩ : OnexEnv).maxAttempts := by
  refine ⟨?_, ?_, ?_⟩
  · exact (c3_poll_bounds
      ⟨some ("T1"), some ("555"), some ("10.0.0.1"), none, none⟩
      ⟨true, Except.ok (some ("CLw")), true, fun _ => PollOutcome.noVoiceEvent, 2, none, none, ""⟩
      (fun k => if k = 0 then PollOutcome.pollError
        else PollOutcome.voice (some ("VI9")) (some ("U9"))) 5).2.1 1 (by decide) (by decide)
  · exact (c3_poll_bounds
      ⟨some ("T1"), some ("555"), some ("10.0.0.1"), none, none⟩
      ⟨true, Except.ok (some ("CLw")), true, fun _ => PollOutcome.noVoiceEvent, 2, none, none, ""⟩
      (fun _ => PollOutcome.pollError) 3).2.2 (fun j hj => rfl)
  · exact (c3_poll_bounds
      ⟨some ("T1"), some ("555"), some ("10.0.0.1"), none, none⟩
      ⟨true, Except.ok (some ("CLw")), true, fun _ => PollOutcome.noVoiceEvent, 2, none, none, ""⟩
      (fun _ => PollOutcome.pollError) 3).1

/- ===== C2: UCID precedence and success flag ===== -/

/-- C2: on every origination attempt that completes with an outcome
record (registration or the supplied session accepted, makecall
issued without a throw), the outcome UCID is the side-channel value
when the side channel produced one, the notification value when only
the notification channel produced one, and null with a successful
status when neither did; the success flag equals whether an
interaction id was obtained and does not depend on the UCID. -/
theorem c2_ucid_selection (req : StartcallReq) (env : OnexEnv) (cid : String) (created : Bool)
    (hparams : (jsTruthy req.ticketNumber && jsTruthy req.clientPhone && jsTruthy req.deviceIp) = true)
    (hb : env.baseUrlOk = true)
    (he : ensureClientRes req env = Except.ok (cid, created))
    (hm : env.makecallOk = true) :
    (startcallRun req env).resp.status = 200
    ∧ (startcallRun req env).resp.ucid
        = jsOr (if env.station.isSome then env.javaUcid else none) (pollLoopRun env).ucid
    ∧ (∀ a, (if env.station.isSome then env.javaUcid else none) = some a →
        (startcallRun req env).resp.ucid = some a)
    ∧ ((if env.station.isSome then env.javaUcid else none) = none →
        (startcallRun req env).resp.ucid = (pollLoopRun env).ucid)
    ∧ ((if env.station.isSome then env.javaUcid else none) = none →
        (pollLoopRun env).ucid = none → (startcallRun req env).resp.ucid = none)
    ∧ (startcallRun req env).resp.success = ((startcallRun req env).resp.interactionId).isSome
    ∧ (startcallRun req env).resp.interactionId = (pollLoopRun env).iid := by
  have hrun : (startcallRun req env).resp
      = ⟨200, (pollLoopRun env).iid.isSome,
          jsOr (if env.station.isSome then env.javaUcid else none) (pollLoopRun env).ucid,
          (pollLoopRun env).iid, some cid⟩ := by
    unfold startcallRun
    simp [hparams, hb, he, hm]
  rw [hrun]
  refine ⟨rfl, rfl, ?_, ?_, ?_, rfl, rfl⟩
  · intro a ha
    rw [ha]; rfl
  · intro ha
    rw [ha]; rfl
  · intro ha hn
    rw [ha, hn]; rfl

/-- C2 witness: a concrete completed attempt where the side channel and
the notification channel disagree keeps the side-channel value, and one
where neither channel produced a UCID completes successfully with a
null UCID while its success flag tracks the interaction id. -/
theorem c2_witness :
    (startcallRun
      ⟨some ("T1"), some ("555"), some ("10.0.0.1"), none, none⟩
      ⟨true, Except.ok (some ("CLw")), true,
        fun _ => PollOutcome.voice (some ("VI1")) (some ("UX")), 2,
        some ("ST7"), some ("UJ"), ""⟩).resp.ucid = some ("UJ")
    ∧ (startcallRun
      ⟨some ("T1"), some ("555"), some ("10.0.0.1"), none, none⟩
      ⟨true, Except.ok (some ("CLw")), true,
        fun _ => PollOutcome.noVoiceEvent, 2, none, none, ""⟩).resp.ucid = none
    ∧ (startcallRun
      ⟨some ("T1"), some ("555"), some ("10.0.0.1"), none, none⟩
      ⟨true, Except.ok (some ("CLw")), true,
        fun _ => PollOutcome.noVoiceEvent, 2, none, none, ""⟩).resp.status = 200 := by
  refine ⟨?_, ?_, ?_⟩
  · have h := c2_ucid_selection
      ⟨some ("T1"), some ("555"), some ("10.0.0.1"), none, none⟩
      ⟨true, Except.ok (some ("CLw")), true,
        fun _ => PollOutcome.voice (some ("VI1")) (some ("UX")), 2,
        some ("ST7"), some ("UJ"), ""⟩ ("CLw") true rfl rfl rfl rfl
    exact h.2.2.1 ("UJ") rfl
  · have h := c2_ucid_selection
      ⟨some ("T1"), some ("555"), some ("10.0.0.1"), none, none⟩
      ⟨true, Except.ok (some ("CLw")), true,
        fun _ => PollOutcome.noVoiceEvent, 2, none, none, ""⟩ ("CLw") true rfl rfl rfl rfl
    exact h.2.2.2.2.1 rfl (by decide)
  · have h := c2_ucid_selection
      ⟨some ("T1"), some ("555"), some ("10.0.0.1"), none, none⟩
      ⟨true, Except.ok (some ("CLw")), true,
        fun _ => PollOutcome.noVoiceEvent, 2, none, none, ""⟩ ("CLw") true rfl rfl rfl rfl
    exact h.1

/- ===== C6: cache resolve idempotence ===== -/

/-- The wav cache path differs from the raw cache path. -/
theorem wav_ne_raw (root inum : String) :
    (localPathsFor root inum).wav ≠ (localPathsFor root inum).raw := by
  intro h
  have hh := congrArg String.length h
  simp only [localPathsFor, pathJoin, String.length_append,
    show ("/" : String).length = 1 from rfl,
    show (".wav" : String).length = 4 from rfl,
    show (".raw.bin" : String).length = 8 from rfl] at hh
  omega

/-- The wav cache path differs from the metadata cache path. -/
theorem wav_ne_meta (root inum : String) :
    (localPathsFor root inum).wav ≠ (localPathsFor root inum).meta := by
  intro h
  have hh := congrArg String.length h
  simp only [localPathsFor, pathJoin, String.length_append,
    show ("/" : String).length = 1 from rfl,
    show (".wav" : String).length = 4 from rfl,
    show (".json" : String).length = 5 from rfl] at hh
  omega

/-- A cache hit returns immediately with no effects. -/
theorem ensureLocalWavRun_hit (inum : String) (env : MediaEnv) (fs : String → Option Nat)
    (hhit : cacheHit fs (localPathsFor env.mediaRoot inum).wav = true) :
    ensureLocalWavRun inum env fs
      = ⟨Except.ok (localPathsFor env.mediaRoot inum).wav, fs, 0, 0⟩ := by
  simp only [ensureLocalWavRun]
  rw [if_pos hhit]

/-- C6: starting from a cold cache, two successive resolves of the same
valid recording id (download and transcode succeed, the transcoded file
is nonempty) perform exactly one download and one transcode in total:
the first call does all the work and the second is served from the
cache; both return the same wav path. -/
theorem c6_cache_idempotent (inum : String) (env : MediaEnv) (fs0 : String → Option Nat)
    (dl t : Nat)
    (hmiss : cacheHit fs0 (localPathsFor env.mediaRoot inum).wav = false)
    (hd : env.downloadResult = Except.ok dl)
    (ht : env.transcodeResult = Except.ok t)
    (htpos : 0 < t) :
    (ensureLocalWavRun inum env fs0).downloads = 1
    ∧ (ensureLocalWavRun inum env fs0).transcodes = 1
    ∧ (ensureLocalWavRun inum env (ensureLocalWavRun inum env fs0).fs).downloads = 0
    ∧ (ensureLocalWavRun inum env (ensureLocalWavRun inum env fs0).fs).transcodes = 0
    ∧ (ensureLocalWavRun inum env fs0).result
        = Except.ok (localPathsFor env.mediaRoot inum).wav
    ∧ (ensureLocalWavRun inum env (ensureLocalWavRun inum env fs0).fs).result
        = Except.ok (localPathsFor env.mediaRoot inum).wav := by
  have hwr := wav_ne_raw env.mediaRoot inum
  have hwm := wav_ne_meta env.mediaRoot inum
  have hfs : (ensureLocalWavRun inum env fs0).fs (localPathsFor env.mediaRoot inum).wav
      = some t := by
    simp [ensureLocalWavRun, hmiss, hd, ht, fsUpdate, hwr, hwm]
  have hhit2 : cacheHit (ensureLocalWavRun inum env fs0).fs
      (localPathsFor env.mediaRoot inum).wav = true := by
    unfold cacheHit
    rw [hfs]
    simpa using htpos
  refine ⟨?_, ?_, ?_, ?_, ?_, ?_⟩
  · simp [ensureLocalWavRun, hmiss, hd, ht]
  · simp [ensureLocalWavRun, hmiss, hd, ht]
  · rw [ensureLocalWavRun_hit inum env _ hhit2]
  · rw [ensureLocalWavRun_hit inum env _ hhit2]
  · simp [ensureLocalWavRun, hmiss, hd, ht]
  · rw [ensureLocalWavRun_hit inum env _ hhit2]

/-- C6 witness: a concrete cold-cache double resolve of one recording
id downloads and transcodes once and returns the same cached path
twice. -/
theorem c6_witness :
    (ensureLocalWavRun ("REC1") ⟨"/media", Except.ok 10, Except.ok 5⟩ (fun _ => none)).downloads = 1
    ∧ (ensureLocalWavRun ("REC1") ⟨"/media", Except.ok 10, Except.ok 5⟩ (fun _ => none)).transcodes = 1
    ∧ (ensureLocalWavRun ("REC1") ⟨"/media", Except.ok 10, Except.ok 5⟩
        (ensureLocalWavRun ("REC1") ⟨"/media", Except.ok 10, Except.ok 5⟩ (fun _ => none)).fs).downloads = 0
    ∧ (ensureLocalWavRun ("REC1") ⟨"/media", Except.ok 10, Except.ok 5⟩
        (ensureLocalWavRun ("REC1") ⟨"/media", Except.ok 10, Except.ok 5⟩ (fun _ => none)).fs).transcodes = 0
    ∧ (ensureLocalWavRun ("REC1") ⟨"/media", Except.ok 10, Except.ok 5⟩ (fun _ => none)).result
        = Except.ok ("/media/REC1.wav")
    ∧ (ensureLocalWavRun ("REC1") ⟨"/media", Except.ok 10, Except.ok 5⟩
        (ensureLocalWavRun ("REC1") ⟨"/media", Except.ok 10, Except.ok 5⟩ (fun _ => none)).fs).result
        = Except.ok ("/media/REC1.wav") := by
  exact c6_cache_idempotent ("REC1") ⟨"/media", Except.ok 10, Except.ok 5⟩ (fun _ => none)
    10 5 rfl rfl rfl (by decide)

/- ===== C7: range streaming (corrected) ===== -/

/-- C7 counterexample: the header zbytes=1-2 does not have the
bytes=start-end shape, yet the unanchored regular expression finds the
embedded pattern and the response is a 206 partial response, not the
full-content 200 the claim requires; for reference, a genuinely
well-formed header behaves as described. -/
theorem c7_counterexample :
    rangeShapeSpec ("zbytes=1-2") = false
    ∧ (streamFileRun 100 (some ("zbytes=1-2"))).status = 206
    ∧ ¬((streamFileRun 100 (some ("zbytes=1-2"))).status = 200) := by
  refine ⟨rfl, rfl, by decide⟩

/-- C7 amended: with no range header, or a range header in which the
pattern bytes=digits-optional-digits occurs nowhere, the response is a
200 with the full length; when the pattern occurs somewhere in the
header, the response is a 206 whose Content-Range and Content-Length
are computed from the first occurrence, the end defaulting to size-1
when omitted. -/
theorem c7_stream_range (total : Nat) (ro : Option String) :
    (ro = none → streamFileRun total ro = ⟨200, none, (total : Int)⟩)
    ∧ (∀ h, ro = some h → execBytesRange h.data = none →
        streamFileRun total ro = ⟨200, none, (total : Int)⟩)
    ∧ (∀ h s e2, ro = some h → execBytesRange h.data = some (s, some e2) →
        streamFileRun total ro
          = ⟨206, some (crStr s (e2 : Int) total), (e2 : Int) - (s : Int) + 1⟩)
    ∧ (∀ h s, ro = some h → execBytesRange h.data = some (s, none) →
        streamFileRun total ro
          = ⟨206, some (crStr s ((total : Int) - 1) total),
              ((total : Int) - 1) - (s : Int) + 1⟩) := by
  refine ⟨?_, ?_, ?_, ?_⟩
  · rintro rfl; rfl
  · rintro h rfl hex
    by_cases hemp : h = ""
    · subst hemp; rfl
    · unfold streamFileRun
      have ht : jsTruthy (some h) = true := by simp [jsTruthy, hemp]
      rw [ht]
      simp [orEmpty, hex]
  · rintro h s e2 rfl hex
    have hemp : h ≠ "" := by
      rintro rfl
      simp [execBytesRange] at hex
    unfold streamFileRun
    have ht : jsTruthy (some h) = true := by simp [jsTruthy, hemp]
    rw [ht]
    simp [orEmpty, hex]
  · rintro h s rfl hex
    have hemp : h ≠ "" := by
      rintro rfl
      simp [execBytesRange] at hex
    unfold streamFileRun
    have ht : jsTruthy (some h) = true := by simp [jsTruthy, hemp]
    rw [ht]
    simp [orEmpty, hex]

/-- C7 witness: the documented example (bytes=10-19 against a 100-byte
file gives 206, Content-Range bytes 10-19/100, Content-Length 10), an
absent header giving the full 200 response, and a header without the
pattern falling back to the full response. -/
theorem c7_witness :
    streamFileRun 100 (some ("bytes=10-19"))
      = ⟨206, some ("bytes 10-19/100"), 10⟩
    ∧ streamFileRun 100 none = ⟨200, none, 100⟩
    ∧ streamFileRun 100 (some ("bytes=abc")) = ⟨200, none, 100⟩
    ∧ streamFileRun 100 (some ("bytes=10-"))
      = ⟨206, some ("bytes 10-99/100"), 90⟩ := by
  refine ⟨?_, ?_, ?_, ?_⟩
  · have h := (c7_stream_range 100 (some ("bytes=10-19"))).2.2.1 ("bytes=10-19") 10 19 rfl rfl
    rw [h]; decide
  · exact (c7_stream_range 100 none).1 rfl
  · exact (c7_stream_range 100 (some ("bytes=abc"))).2.1 ("bytes=abc") rfl rfl
  · have h := (c7_stream_range 100 (some ("bytes=10-"))).2.2.2 ("bytes=10-") 10 rfl rfl
    rw [h]; decide

/- ===== C8: call-attempt audit guard ===== -/

/-- C8: a concrete completed startcall attempt on which only the
notification channel produced an interaction id and no channel produced
a UCID: the outcome is a successful 200 whose UCID is null, and the
call-attempt audit insert is still attempted with that null UCID - the
guard in insertOnexCallLog checks only the interaction id and the
client id, although its own comment and the specification require the
UCID to be nonempty as well. -/
theorem c8_audit_guard_ignores_ucid :
    (startcallRun
      ⟨some ("T9"), some ("555100"), some ("10.0.0.9"), none, none⟩
      ⟨true, Except.ok (some ("CL8")), true,
        fun _ => PollOutcome.voice (some ("VI8")) none, 3, none, none, ""⟩).resp.status = 200
    ∧ (startcallRun
      ⟨some ("T9"), some ("555100"), some ("10.0.0.9"), none, none⟩
      ⟨true, Except.ok (some ("CL8")), true,
        fun _ => PollOutcome.voice (some ("VI8")) none, 3, none, none, ""⟩).resp.ucid = none
    ∧ (startcallRun
      ⟨some ("T9"), some ("555100"), some ("10.0.0.9"), none, none⟩
      ⟨true, Except.ok (some ("CL8")), true,
        fun _ => PollOutcome.voice (some ("VI8")) none, 3, none, none, ""⟩).callLogs
      = [⟨none, "T9", "555100", "10.0.0.9", "CL8", some ("VI8"), ""⟩] := by
  refine ⟨rfl, rfl, by decide⟩

/- ===== sorting lemmas ===== -/

/-- Membership in a descending insertion. -/
theorem mem_insertDesc {α : Type} (key : α → Int) (x b : α) (l : List α) :
    b ∈ insertDesc key x l ↔ b = x ∨ b ∈ l := by
  induction l with
  | nil => simp [insertDesc]
  | cons y ys ih =>
    by_cases h : key y < key x
    · simp [insertDesc, h]
    · simp [insertDesc, h, ih]
      tauto

/-- Descending insertion preserves the newest-first pairwise order. -/
theorem pairwise_insertDesc {α : Type} (key : α → Int) (x : α) (l : List α)
    (h : l.Pairwise (fun a b => key b ≤ key a)) :
    (insertDesc key x l).Pairwise (fun a b => key b ≤ key a) := by
  induction l with
  | nil => simp [insertDesc]
  | cons y ys ih =>
    rcases List.pairwise_cons.mp h with ⟨hy, hys⟩
    by_cases hlt : key y < key x
    · rw [insertDesc, if_pos hlt]
      refine List.pairwise_cons.mpr ⟨?_, h⟩
      intro b hb
      rcases List.mem_cons.mp hb with rfl | hmem
      · exact le_of_lt hlt
      · exact le_trans (hy b hmem) (le_of_lt hlt)
    · rw [insertDesc, if_neg hlt]
      refine List.pairwise_cons.mpr ⟨?_, ih hys⟩
      intro b hb
      rcases (mem_insertDesc key x b ys).mp hb with rfl | hmem
      · exact not_lt.mp hlt
      · exact hy b hmem

/-- The stable descending sort is pairwise newest-first. -/
theorem pairwise_sortDesc {α : Type} (key : α → Int) (l : List α) :
    (sortDesc key l).Pairwise (fun a b => key b ≤ key a) := by
  have main : ∀ (l acc : List α), acc.Pairwise (fun a b => key b ≤ key a) →
      (l.foldl (fun acc x => insertDesc key x acc) acc).Pairwise (fun a b => key b ≤ key a) := by
    intro l
    induction l with
    | nil => intro acc h; simpa using h
    | cons x xs ih =>
      intro acc h
      exact ih (insertDesc key x acc) (pairwise_insertDesc key x acc h)
  exact main l [] (by simp)

/-- The stable descending sort has the same members as its input. -/
theorem mem_sortDesc {α : Type} (key : α → Int) (l : List α) (b : α) :
    b ∈ sortDesc key l ↔ b ∈ l := by
  have main : ∀ (l acc : List α), b ∈ l.foldl (fun acc x => insertDesc key x acc) acc
      ↔ b ∈ acc ∨ b ∈ l := by
    intro l
    induction l with
    | nil => intro acc; simp
    | cons x xs ih =>
      intro acc
      rw [List.foldl_cons, ih (insertDesc key x acc)]
      rw [mem_insertDesc key x b acc]
      simp
      tauto
  have h := main l []
  simpa using h

/-- Descending insertion adds one element. -/
theorem length_insertDesc {α : Type} (key : α → Int) (x : α) (l : List α) :
    (insertDesc key x l).length = l.length + 1 := by
  induction l with
  | nil => rfl
  | cons y ys ih =>
    by_cases h : key y < key x
    · simp [insertDesc, h]
    · simp [insertDesc, h, ih]

/-- The stable descending sort preserves length. -/
theorem length_sortDesc {α : Type} (key : α → Int) (l : List α) :
    (sortDesc key l).length = l.length := by
  have main : ∀ (l acc : List α),
      (l.foldl (fun acc x => insertDesc key x acc) acc).length = acc.length + l.length := by
    intro l
    induction l with
    | nil => intro acc; simp
    | cons x xs ih =>
      intro acc
      rw [List.foldl_cons, ih (insertDesc key x acc), length_insertDesc]
      simp
      omega
  have h := main l []
  simpa using h

/- ===== searchByNumber success shape ===== -/

/-- On the happy path (parameters present, window valid, search
succeeded with a nonempty raw result list) the number search reduces to
the filter-sort-limit core. -/
theorem searchByNumberRun_success (q : AcrQuery) (env : AcrEnv)
    (results : List AcrResult) (rng : RangeRes)
    (hnum : jsTrim (orEmpty q.number) ≠ "")
    (hsd : jsTrim (orEmpty q.startdate) ≠ "")
    (hrange : computeRangeFromQuery (jsTrim (orEmpty q.startdate)) q.enddate q.windowDays
        = Except.ok rng)
    (hs : env.searchOutcome = Except.ok results)
    (hres : results ≠ []) :
    searchByNumberRun q env =
      (if sbnLimit q.limit = 0 then
        match (sortDesc (startKeyOf env.dateMs)
            (results.filterMap (toSbnItem env.acrBaseUrl (jsTrim (orEmpty q.number))))).head? with
        | none => ⟨502, none, none, none, 1, []⟩
        | some first =>
          ⟨200, some ((sortDesc (startKeyOf env.dateMs)
              (results.filterMap (toSbnItem env.acrBaseUrl (jsTrim (orEmpty q.number))))).length),
            some first, none, 1, [first]⟩
      else
        ⟨200, some ((sortDesc (startKeyOf env.dateMs)
            (results.filterMap (toSbnItem env.acrBaseUrl (jsTrim (orEmpty q.number))))).length),
          none,
          some ((sortDesc (startKeyOf env.dateMs)
            (results.filterMap (toSbnItem env.acrBaseUrl (jsTrim (orEmpty q.number))))).take
              (sbnLimit q.limit)), 1,
          (sortDesc (startKeyOf env.dateMs)
            (results.filterMap (toSbnItem env.acrBaseUrl (jsTrim (orEmpty q.number))))).take
              (sbnLimit q.limit)⟩) := by
  have hcond : ¬(jsTrim (orEmpty q.number) = "" ∨ jsTrim (orEmpty q.startdate) = "") := by
    push_neg
    exact ⟨hnum, hsd⟩
  simp only [searchByNumberRun]
  rw [if_neg hcond]
  simp only [hrange, hs]
  rw [if_neg hres]

/- ===== C4: number-search ordering and limit (corrected) ===== -/

/-- C4 counterexample: a search whose parsed result list is nonempty
(one record) but whose only record lacks its recording identifier,
queried with the limit absent: the claim requires exactly the single
newest record to be returned, but the source reads a property of an
undefined first element and the attempt ends as a 502 error with no
record at all. -/
theorem c4_counterexample :
    envNoInum.searchOutcome = Except.ok [recNoInum]
    ∧ [recNoInum] ≠ ([] : List AcrResult)
    ∧ sbnLimit qNum.limit = 0
    ∧ (searchByNumberRun qNum envNoInum).status = 502
    ∧ (searchByNumberRun qNum envNoInum).item = none
    ∧ (searchByNumberRun qNum envNoInum).items = none
    ∧ (searchByNumberRun qNum envNoInum).audits = [] := by
  refine ⟨rfl, by decide, rfl, rfl, rfl, rfl, rfl⟩

/-- C4 amended: for every number search whose surviving record list
(after dropping records without a recording identifier) is nonempty,
the survivors are sorted by start time descending; with the limit
absent, zero or negative exactly the single newest surviving record is
returned; with a positive limit, the first limit records of the
descending order are returned, at most limit of them, newest first. -/
theorem c4_sorted_limit (q : AcrQuery) (env : AcrEnv)
    (results : List AcrResult) (rng : RangeRes)
    (hnum : jsTrim (orEmpty q.number) ≠ "")
    (hsd : jsTrim (orEmpty q.startdate) ≠ "")
    (hrange : computeRangeFromQuery (jsTrim (orEmpty q.startdate)) q.enddate q.windowDays
        = Except.ok rng)
    (hs : env.searchOutcome = Except.ok results)
    (hres : results ≠ [])
    (hsurv : results.filterMap (toSbnItem env.acrBaseUrl (jsTrim (orEmpty q.number))) ≠ []) :
    (searchByNumberRun q env).status = 200
    ∧ ((sortDesc (startKeyOf env.dateMs)
        (results.filterMap (toSbnItem env.acrBaseUrl (jsTrim (orEmpty q.number))))).Pairwise
        (fun a b => startKeyOf env.dateMs b ≤ startKeyOf env.dateMs a))
    ∧ (sbnLimit q.limit = 0 →
        (searchByNumberRun q env).item
          = (sortDesc (startKeyOf env.dateMs)
              (results.filterMap (toSbnItem env.acrBaseUrl (jsTrim (orEmpty q.number))))).head?
        ∧ (searchByNumberRun q env).items = none
        ∧ (∀ first, (searchByNumberRun q env).item = some first →
            ∀ r ∈ results.filterMap (toSbnItem env.acrBaseUrl (jsTrim (orEmpty q.number))),
              startKeyOf env.dateMs r ≤ startKeyOf env.dateMs first))
    ∧ (0 < sbnLimit q.limit →
        (searchByNumberRun q env).items
          = some ((sortDesc (startKeyOf env.dateMs)
              (results.filterMap (toSbnItem env.acrBaseUrl (jsTrim (orEmpty q.number))))).take
                (sbnLimit q.limit))
        ∧ (∀ l2, (searchByNumberRun q env).items = some l2 →
            l2.length ≤ sbnLimit q.limit
            ∧ l2.Pairwise (fun a b => startKeyOf env.dateMs b ≤ startKeyOf env.dateMs a))) := by
  have hrun := searchByNumberRun_success q env results rng hnum hsd hrange hs hres
  have hpair := pairwise_sortDesc (startKeyOf env.dateMs)
    (results.filterMap (toSbnItem env.acrBaseUrl (jsTrim (orEmpty q.number))))
  have hsorted_ne : sortDesc (startKeyOf env.dateMs)
      (results.filterMap (toSbnItem env.acrBaseUrl (jsTrim (orEmpty q.number)))) ≠ [] := by
    intro h
    apply hsurv
    have hl := length_sortDesc (startKeyOf env.dateMs)
      (results.filterMap (toSbnItem env.acrBaseUrl (jsTrim (orEmpty q.number))))
    rw [h] at hl
    exact List.length_eq_zero.mp hl.symm
  obtain ⟨first, rest, hfr⟩ := List.exists_cons_of_ne_nil hsorted_ne
  have hhead : (sortDesc (startKeyOf env.dateMs)
      (results.filterMap (toSbnItem env.acrBaseUrl (jsTrim (orEmpty q.number))))).head?
      = some first := by
    rw [hfr]; rfl
  have hmax : ∀ r ∈ results.filterMap (toSbnItem env.acrBaseUrl (jsTrim (orEmpty q.number))),
      startKeyOf env.dateMs r ≤ startKeyOf env.dateMs first := by
    intro r hr
    have hr2 : r ∈ sortDesc (startKeyOf env.dateMs)
        (results.filterMap (toSbnItem env.acrBaseUrl (jsTrim (orEmpty q.number)))) :=
      (mem_sortDesc _ _ _).mpr hr
    rw [hfr] at hr2 hpair
    rcases List.mem_cons.mp hr2 with rfl | hmem
    · exact le_refl _
    · exact (List.pairwise_cons.mp hpair).1 r hmem
  by_cases hz : sbnLimit q.limit = 0
  · have hrun0 : searchByNumberRun q env
        = ⟨200, some ((first :: rest).length), some first, none, 1, [first]⟩ := by
      rw [hrun, if_pos hz, hfr]
      rfl
    refine ⟨by rw [hrun0], hpair, ?_, ?_⟩
    · intro _
      refine ⟨?_, by rw [hrun0], ?_⟩
      · rw [hrun0]
        exact hhead.symm
      · intro f hf r hr
        rw [hrun0] at hf
        have hffirst : first = f := Option.some.inj hf
        rw [← hffirst]
        exact hmax r hr
    · intro hpos
      rw [hz] at hpos
      exact absurd hpos (by decide)
  · have hrunP : searchByNumberRun q env
        = ⟨200, some ((sortDesc (startKeyOf env.dateMs)
            (results.filterMap (toSbnItem env.acrBaseUrl (jsTrim (orEmpty q.number))))).length),
          none,
          some ((sortDesc (startKeyOf env.dateMs)
            (results.filterMap (toSbnItem env.acrBaseUrl (jsTrim (orEmpty q.number))))).take
              (sbnLimit q.limit)), 1,
          (sortDesc (startKeyOf env.dateMs)
            (results.filterMap (toSbnItem env.acrBaseUrl (jsTrim (orEmpty q.number))))).take
              (sbnLimit q.limit)⟩ := by
      rw [hrun, if_neg hz]
    refine ⟨by rw [hrunP], hpair, ?_, ?_⟩
    · intro h0
      exact absurd h0 hz
    · intro _
      refine ⟨by rw [hrunP], ?_⟩
      intro l2 hl2
      rw [hrunP] at hl2
      have hl2eq : l2 = (sortDesc (startKeyOf env.dateMs)
          (results.filterMap (toSbnItem env.acrBaseUrl (jsTrim (orEmpty q.number))))).take
            (sbnLimit q.limit) := (Option.some.inj hl2).symm
      rw [hl2eq]
      constructor
      · exact List.length_take_le _ _
      · exact hpair.sublist (List.take_sublist _ _)

/-- C4 witness: three records with start times T1 < T2 < T3 and limit
two return exactly the two newest records, newest first. -/
theorem c4_witness :
    (searchByNumberRun qNumLimit2 envThreeW).items
      = some [itemW ("I3") ("T3"), itemW ("I2") ("T2")]
    ∧ (searchByNumberRun qNumLimit2 envThreeW).status = 200
    ∧ (searchByNumberRun qNumLimit2 envThreeW).found = some 3 := by
  have h := c4_sorted_limit qNumLimit2 envThreeW
    [recW ("I1") ("T1"), recW ("I2") ("T2"), recW ("I3") ("T3")]
    ⟨⟨2024, 1, 1⟩, ⟨2024, 1, 1⟩, "01/01/24", "01/01/24"⟩
    (by decide) (by decide) rfl rfl (by decide) (by decide)
  obtain ⟨hstat, hpair, hzero, hpos⟩ := h
  have hitems := (hpos (by decide)).1
  refine ⟨?_, hstat, ?_⟩
  · rw [hitems]
    decide
  · rfl

/- ===== C5: validation lemmas ===== -/

/-- Whatever parseYMD accepts is a real YYYY-MM-DD calendar date (of
its trimmed input). -/
theorem parseYMD_some_spec (s : String) (r : Ymd) (h : parseYMD s = some r) :
    specRealYMD (jsTrim s) = true := by
  unfold parseYMD at h
  split at h
  case h_1 y1 y2 y3 y4 h1 m1 m2 h2 d1 d2 heq =>
    split at h
    case isTrue hcond =>
      dsimp only at h
      split at h
      case isTrue hbounds =>
        obtain ⟨hA, hB, hC⟩ := hcond
        obtain ⟨h70, h21, hm1, hm12, hd1, hd31, hdim⟩ := hbounds
        unfold specRealYMD
        rw [heq]
        subst hA
        subst hB
        simp [hC]
        exact ⟨hm1, hm12, hd1, hdim⟩
      case isFalse _ => exact absurd h (by simp)
    case isFalse _ => exact absurd h (by simp)
  case h_2 => exact absurd h (by simp)

/-- The window computation throws a validation error on every input the
invalid-dates condition describes. -/
theorem computeRange_error_of_invalid (q : AcrQuery) (hinv : invalidArchiveDates q) :
    ∃ e, computeRangeFromQuery (jsTrim (orEmpty q.startdate)) q.enddate q.windowDays
      = Except.error e := by
  rcases hinv with hstart | ⟨hed, hspec⟩ | ⟨hed, w, v, hw, hv, hvle⟩
  · have hnone : parseYMD (jsTrim (orEmpty q.startdate)) = none := by
      cases hp : parseYMD (jsTrim (orEmpty q.startdate)) with
      | none => rfl
      | some r =>
        have := parseYMD_some_spec _ r hp
        rw [jsTrim_idem] at this
        rw [this] at hstart
        exact absurd hstart (by decide)
    refine ⟨RangeErr.invalidStart, ?_⟩
    unfold computeRangeFromQuery
    rw [hnone]
  · cases hp : parseYMD (jsTrim (orEmpty q.startdate)) with
    | none =>
      refine ⟨RangeErr.invalidStart, ?_⟩
      unfold computeRangeFromQuery
      rw [hp]
    | some start =>
      have hnone2 : parseYMD (orEmpty q.enddate) = none := by
        cases hp2 : parseYMD (orEmpty q.enddate) with
        | none => rfl
        | some r =>
          have := parseYMD_some_spec _ r hp2
          rw [this] at hspec
          exact absurd hspec (by decide)
      refine ⟨RangeErr.invalidEnd, ?_⟩
      simp only [computeRangeFromQuery, hp, hed, hnone2]
      simp
  · cases hp : parseYMD (jsTrim (orEmpty q.startdate)) with
    | none =>
      refine ⟨RangeErr.invalidStart, ?_⟩
      unfold computeRangeFromQuery
      rw [hp]
    | some start =>
      refine ⟨RangeErr.invalidWindow, ?_⟩
      simp only [computeRangeFromQuery, hp, hed, hw, hv]
      rw [if_neg (by decide)]
      rw [if_pos hvle]

/- ===== C5: archive-search validation and inum filter (corrected) ===== -/

/-- C5 counterexample: with a valid start date, a valid explicit end
date and windowDays equal to minus five - a non-positive windowDays -
the number search is not rejected: it issues its outbound archive
request and answers 200, because windowDays is consulted only when no
end date is supplied. -/
theorem c5_counterexample :
    qWindowCE.windowDays = some ("-5")
    ∧ jsParseInt ("-5") = some (-5)
    ∧ ((-5 : Int) ≤ 0)
    ∧ (searchByNumberRun qWindowCE envEmptyW).searchCalls = 1
    ∧ (searchByNumberRun qWindowCE envEmptyW).status = 200 := by
  refine ⟨rfl, by decide, by decide, rfl, rfl⟩

/-- C5 amended: for each of the three archive-search routes, a start
date that is not a real YYYY-MM-DD calendar date, a truthy end date
that is not one, or - when no truthy end date is supplied - a
windowDays parsing to a non-positive integer, is rejected with a 400
client error before any outbound request (no archive search, no proxy
call, no download, no transcode, no audit row); and for the number
search, records missing their recording identifier are dropped before
sorting and counting: the reported count is the number of surviving
records and every audit row and returned item is one of the
survivors. -/
theorem c5_validation_and_inum_filter :
    (∀ (q : AcrQuery) (env : AcrEnv) (fs0 : String → Option Nat), invalidArchiveDates q →
        ((findRun q env).status = 400
          ∧ (findRun q env).searchCalls = 0
          ∧ (findRun q env).audits = [])
        ∧ ((replayByUcidRun q env fs0).status = 400
          ∧ (replayByUcidRun q env fs0).searchCalls = 0
          ∧ (replayByUcidRun q env fs0).proxyCalls = 0
          ∧ (replayByUcidRun q env fs0).downloads = 0
          ∧ (replayByUcidRun q env fs0).transcodes = 0
          ∧ (replayByUcidRun q env fs0).audits = [])
        ∧ ((searchByNumberRun q env).status = 400
          ∧ (searchByNumberRun q env).searchCalls = 0
          ∧ (searchByNumberRun q env).audits = []))
    ∧ (∀ (q : AcrQuery) (env : AcrEnv) (results : List AcrResult) (rng : RangeRes),
        jsTrim (orEmpty q.number) ≠ "" →
        jsTrim (orEmpty q.startdate) ≠ "" →
        computeRangeFromQuery (jsTrim (orEmpty q.startdate)) q.enddate q.windowDays
          = Except.ok rng →
        env.searchOutcome = Except.ok results →
        results ≠ [] →
        ((searchByNumberRun q env).status = 200 →
          (searchByNumberRun q env).found
            = some ((results.filterMap (toSbnItem env.acrBaseUrl (jsTrim (orEmpty q.number)))).length))
        ∧ (∀ p ∈ (searchByNumberRun q env).audits,
            p ∈ results.filterMap (toSbnItem env.acrBaseUrl (jsTrim (orEmpty q.number))))
        ∧ (∀ l2, (searchByNumberRun q env).items = some l2 →
            ∀ p ∈ l2, p ∈ results.filterMap (toSbnItem env.acrBaseUrl (jsTrim (orEmpty q.number))))
        ∧ (∀ p, (searchByNumberRun q env).item = some p →
            p ∈ results.filterMap (toSbnItem env.acrBaseUrl (jsTrim (orEmpty q.number))))) := by
  constructor
  · intro q env fs0 hinv
    obtain ⟨e, he⟩ := computeRange_error_of_invalid q hinv
    refine ⟨?_, ?_, ?_⟩
    · by_cases hc : (jsTrim (orEmpty q.ucid) = "" ∨ jsTrim (orEmpty q.startdate) = "")
      · simp [findRun, hc]
      · simp [findRun, hc, he]
    · by_cases hc : (jsTrim (orEmpty q.ucid) = "" ∨ jsTrim (orEmpty q.startdate) = "")
      · simp [replayByUcidRun, hc]
      · simp [replayByUcidRun, hc, he]
    · by_cases hc : (jsTrim (orEmpty q.number) = "" ∨ jsTrim (orEmpty q.startdate) = "")
      · simp [searchByNumberRun, hc]
      · simp [searchByNumberRun, hc, he]
  · intro q env results rng hnum hsd hrange hs hres
    have hrun := searchByNumberRun_success q env results rng hnum hsd hrange hs hres
    have hlen := length_sortDesc (startKeyOf env.dateMs)
      (results.filterMap (toSbnItem env.acrBaseUrl (jsTrim (orEmpty q.number))))
    by_cases hz : sbnLimit q.limit = 0
    · rw [if_pos hz] at hrun
      cases hh : (sortDesc (startKeyOf env.dateMs)
          (results.filterMap (toSbnItem env.acrBaseUrl (jsTrim (orEmpty q.number))))).head? with
      | none =>
        rw [hh] at hrun
        have hrun0 : searchByNumberRun q env = ⟨502, none, none, none, 1, []⟩ := hrun
        refine ⟨?_, ?_, ?_, ?_⟩
        · intro h200
          rw [hrun0] at h200
          exact absurd h200 (by decide)
        · intro p hp
          rw [hrun0] at hp
          exact absurd hp (by simp)
        · intro l2 hl2
          rw [hrun0] at hl2
          exact absurd hl2 (by simp)
        · intro p hp
          rw [hrun0] at hp
          exact absurd hp (by simp)
      | some first =>
        rw [hh] at hrun
        have hrun0 : searchByNumberRun q env
            = ⟨200, some ((sortDesc (startKeyOf env.dateMs)
                (results.filterMap (toSbnItem env.acrBaseUrl (jsTrim (orEmpty q.number))))).length),
              some first, none, 1, [first]⟩ := hrun
        have hfirstmem : first ∈ results.filterMap (toSbnItem env.acrBaseUrl (jsTrim (orEmpty q.number))) := by
          have hmem : first ∈ sortDesc (startKeyOf env.dateMs)
              (results.filterMap (toSbnItem env.acrBaseUrl (jsTrim (orEmpty q.number)))) :=
            List.mem_of_mem_head? hh
          exact (mem_sortDesc _ _ _).mp hmem
        refine ⟨?_, ?_, ?_, ?_⟩
        · intro _
          rw [hrun0, hlen]
        · intro p hp
          rw [hrun0] at hp
          rw [List.mem_singleton.mp hp]
          exact hfirstmem
        · intro l2 hl2
          rw [hrun0] at hl2
          exact absurd hl2 (by simp)
        · intro p hp
          rw [hrun0] at hp
          rw [Option.some.inj hp.symm]
          exact hfirstmem
    · rw [if_neg hz] at hrun
      have hsub : ∀ p ∈ (sortDesc (startKeyOf env.dateMs)
          (results.filterMap (toSbnItem env.acrBaseUrl (jsTrim (orEmpty q.number))))).take
            (sbnLimit q.limit),
          p ∈ results.filterMap (toSbnItem env.acrBaseUrl (jsTrim (orEmpty q.number))) := by
        intro p hp
        have hp2 := List.take_subset _ _ hp
        exact (mem_sortDesc _ _ _).mp hp2
      refine ⟨?_, ?_, ?_, ?_⟩
      · intro _
        rw [hrun, hlen]
      · intro p hp
        rw [hrun] at hp
        exact hsub p hp
      · intro l2 hl2
        rw [hrun] at hl2
        have hl2eq : l2 = (sortDesc (startKeyOf env.dateMs)
            (results.filterMap (toSbnItem env.acrBaseUrl (jsTrim (orEmpty q.number))))).take
              (sbnLimit q.limit) := (Option.some.inj hl2).symm
        rw [hl2eq]
        exact hsub
      · intro p hp
        rw [hrun] at hp
        exact absurd hp (by simp)

/-- C5 witness: the start date 2024-13-01 (month thirteen) is rejected
by all three routes with a 400 and no outbound effect of any kind, and
a search result lacking its identifier contributes neither to the
count nor to the audit rows. -/
theorem c5_witness :
    ((findRun qBadMonth envEmptyW).status = 400
      ∧ (findRun qBadMonth envEmptyW).searchCalls = 0)
    ∧ ((replayByUcidRun qBadMonth envEmptyW (fun _ => none)).status = 400
      ∧ (replayByUcidRun qBadMonth envEmptyW (fun _ => none)).searchCalls = 0
      ∧ (replayByUcidRun qBadMonth envEmptyW (fun _ => none)).downloads = 0)
    ∧ ((searchByNumberRun qBadMonth envEmptyW).status = 400
      ∧ (searchByNumberRun qBadMonth envEmptyW).searchCalls = 0)
    ∧ (∀ p ∈ (searchByNumberRun qNum envNoInum).audits,
        p ∈ [recNoInum].filterMap (toSbnItem envNoInum.acrBaseUrl (jsTrim (orEmpty qNum.number)))) := by
  have h := c5_validation_and_inum_filter
  have hinv : invalidArchiveDates qBadMonth := Or.inl (by decide)
  have h1 := h.1 qBadMonth envEmptyW (fun _ => none) hinv
  refine ⟨⟨h1.1.1, h1.1.2.1⟩, ⟨h1.2.1.1, h1.2.1.2.1, h1.2.1.2.2.2.1⟩, ⟨h1.2.2.1, h1.2.2.2.1⟩, ?_⟩
  exact (h.2 qNum envNoInum [recNoInum] ⟨⟨2024, 1, 1⟩, ⟨2024, 1, 1⟩, "01/01/24", "01/01/24"⟩
    (by decide) (by decide) rfl rfl (by decide)).2.1
